import Mathlib

/-!
# agorm: retry executor, connection manager, mapping cache and row scanner

A shallow embedding of `common.go`, `agorm.go` (the error values and `TagName`) and
`orm.go`.  Stateful Go code is written in explicit state-passing style; a call can
return, panic, or block for ever on the profile mutex, which is what `Res` records.
-/

namespace Agorm

/-! ## Errors (`agorm.go`, lines 21-29) -/

/-- The `error` values the package can return: its four sentinel errors and any
error produced by `database/sql` or the driver, identified by its message. -/
inductive GoError where
  | ErrDbsNotEmpty
  | ErrParamMustBeStructPointer
  | ErrParamMustBeSlicePointer
  | ErrNoData
  | other (msg : String)
  deriving DecidableEq, Repr

/-- The `Error()` method. -/
def GoError.Error : GoError → String
  | .ErrDbsNotEmpty => "cannot init orm by config file, because orm has been initialized"
  | .ErrParamMustBeStructPointer => "param must be a struct pointer"
  | .ErrParamMustBeSlicePointer => "param must be a slice pointer"
  | .ErrNoData => "empty return"
  | .other msg => msg

/-- `TagName` of `agorm.go`, line 24. -/
def TagName : String := "orm"

/-! ## Outcomes of a stateful call -/

/-- Outcome of running a Go function on a state `σ`: it returns a value, it panics,
or it blocks for ever (a `Lock` on a mutex that nobody will release). -/
inductive Res (σ α : Type) where
  | ret (a : α) (s : σ)
  | panicked (msg : String) (s : σ)
  | blocked (s : σ)
  deriving DecidableEq, Repr

/-- Sequencing of two calls. -/
def Res.bind {σ α β : Type} (r : Res σ α) (f : α → σ → Res σ β) : Res σ β :=
  match r with
  | .ret a s => f a s
  | .panicked m s => .panicked m s
  | .blocked s => .blocked s

/-! ## Retry executor (`common.go`) -/

/-- The `for i := 0; i < MaxTries; i++` loop of `tryAgain` (lines 10-14), with `n`
the number of iterations still to run and `err` the current value of the named
result. -/
def tryAgainLoop {σ : Type} (caller : σ → Res σ (Option GoError)) :
    Nat → Option GoError → σ → Res σ (Option GoError)
  | 0, err, s => .ret err s
  | n + 1, _, s =>
    match caller s with
    | .ret none s1 => .ret none s1
    | .ret (some e) s1 => tryAgainLoop caller n (some e) s1
    | .panicked m s1 => .panicked m s1
    | .blocked s1 => .blocked s1

/-- `tryAgain` (lines 5-17).  `MaxTries` is the package variable of line 3; the loop
runs `MaxTries` times when that is positive and not at all otherwise. -/
def tryAgain {σ : Type} (MaxTries : Int) (caller : σ → Res σ (Option GoError))
    (s : σ) : Res σ (Option GoError) :=
  match caller s with
  | .ret none s1 => .ret none s1
  | .ret (some e) s1 => tryAgainLoop caller MaxTries.toNat (some e) s1
  | .panicked m s1 => .panicked m s1
  | .blocked s1 => .blocked s1

/-- An operation viewed as its sequence of attempt outcomes: the state is the number
of invocations made so far, and invocation number `n` (counted from 0) has outcome
`outs n`. -/
def seqCaller (outs : Nat → Option GoError) : Nat → Res Nat (Option GoError) :=
  fun n => .ret (outs n) (n + 1)

/-! ## Connection profile (`orm.go`, lines 13-26) -/

/-- The object behind a `*sql.DB`: its identity, the pool limits it was given, and
whether `Close` has been called on it. -/
structure DB where
  id : Nat
  maxIdleConns : Int
  maxOpenConns : Int
  closed : Bool
  deriving DecidableEq, Repr

/-- The `Orm` struct.  `locked` is the state of the embedded `sync.Mutex`; `Db` is
`none` for a nil pointer. -/
structure Orm where
  Host : String
  Port : Int
  User : String
  Pass : String
  Charset : String
  DatabaseName : String
  MaxIdleConnection : Int
  MaxOpenConnection : Int
  MaxTimeout : Int
  MaxReadTimeout : Int
  locked : Bool
  Db : Option DB
  deriving DecidableEq, Repr

/-! ## Record shapes and values seen through `reflect` -/

/-- A column or field value. -/
inductive Val where
  | null
  | int (i : Int)
  | str (s : String)
  deriving DecidableEq, Repr

/-- Types a struct field can have in this model: `int64`, `string`, `interface{}`. -/
inductive FieldType where
  | int
  | string
  | iface
  deriving DecidableEq, Repr

/-- The zero value of a field type, as `reflect.New` produces it. -/
def FieldType.zero : FieldType → Val
  | .int => .int 0
  | .string => .str ""
  | .iface => .null

/-- A `reflect.StructField`: declared name, type, and the struct tag as its list of
key/value pairs. -/
structure StructField where
  Name : String
  Typ : FieldType
  Tag : List (String × String)
  deriving DecidableEq, Repr

/-- `StructTag.Get`: the value of the first pair with that key, `""` when absent. -/
def StructField.TagGet (f : StructField) (key : String) : String :=
  match f.Tag.find? (fun kv => kv.1 == key) with
  | some kv => kv.2
  | none => ""

/-- A struct type: its name and its fields in declaration order. -/
structure Shape where
  name : String
  fields : List StructField
  deriving DecidableEq, Repr

/-- A `reflect.Type`. -/
inductive GoType where
  | scalar (t : FieldType)
  | struct (s : Shape)
  | slice (elem : GoType)
  | ptr (elem : GoType)
  deriving DecidableEq, Repr

/-- The content of a variable.  A struct is the list of its field values; a slice is
`none` when nil and otherwise the list of its elements, each element given by the
list of its field values. -/
inductive Stored where
  | scalar (t : FieldType) (v : Val)
  | struct (s : Shape) (fields : List Val)
  | slice (elem : GoType) (items : Option (List (List Val)))
  deriving DecidableEq, Repr

/-- The type of a variable. -/
def Stored.TypeOf : Stored → GoType
  | .scalar t _ => .scalar t
  | .struct s _ => .struct s
  | .slice elem _ => .slice elem

/-- What a caller can pass as `result interface{}`: the nil interface, a value, a
pointer to a variable (whose content the callee can change), or a typed nil
pointer. -/
inductive GoValue where
  | nil
  | direct (v : Stored)
  | ptr (v : Stored)
  | nilPtr (elem : GoType)
  deriving DecidableEq, Repr

/-- The `reflect.Kind` values the code distinguishes. -/
inductive Kind where
  | Invalid
  | Int
  | String
  | Interface
  | Struct
  | Slice
  | Ptr
  deriving DecidableEq, Repr

/-- `reflect.Type.Kind`. -/
def GoType.Kind : GoType → Kind
  | .scalar .int => .Int
  | .scalar .string => .String
  | .scalar .iface => .Interface
  | .struct _ => .Struct
  | .slice _ => .Slice
  | .ptr _ => .Ptr

/-- `reflect.ValueOf(result).Kind()`. -/
def GoValue.Kind : GoValue → Kind
  | .nil => .Invalid
  | .direct v => v.TypeOf.Kind
  | .ptr _ => .Ptr
  | .nilPtr _ => .Ptr

/-! ## The field mapping, a `map[string]int` -/

/-- A Go `map[string]int` as an association list with at most one pair per key. -/
abbrev GoMap := List (String × Nat)

/-- The lookup `m[k]` with its `ok` flag. -/
def GoMap.get? : GoMap → String → Option Nat
  | [], _ => none
  | (k1, v) :: m, k => if k1 = k then some v else GoMap.get? m k

/-- The assignment `m[k] = v`. -/
def GoMap.set : GoMap → String → Nat → GoMap
  | [], k, v => [(k, v)]
  | (k1, v1) :: m, k, v => if k1 = k then (k, v) :: m else (k1, v1) :: GoMap.set m k v

/-! ## The outside world: standard library, driver, package variables -/

/-- What the code takes from outside the repository: the package variable `MaxTries`,
the Unicode tables, the outcome of each `sql.Open` and of each driver query, and the
conversion `database/sql` applies when it stores a column into a destination of a
given type. -/
structure Env where
  MaxTries : Int
  IsUpper : Char → Bool
  ToLower : Char → Char
  sqlOpen : Nat → String → Option String
  driverQuery : Nat → Nat → String → List Val → Except String (List String × List (List Val))
  convertAssign : FieldType → Val → Except String Val

/-- The mutable state the code works on: the profile, the package-level mapping cache
`structMappingContainer`, the lines written to `Logger`, and how many times
`sql.Open` and `Db.Query` have been called. -/
structure World where
  o : Orm
  structMappingContainer : List (GoType × GoMap)
  logged : List String
  opened : Nat
  queried : Nat
  deriving DecidableEq, Repr

/-! ## Mapping cache (`orm.go`, lines 28-38 and 215-252) -/

/-- `ast.IsExported`: the first rune of the name is an upper-case letter. -/
def IsExported (env : Env) (name : String) : Bool :=
  match name.data with
  | [] => false
  | c :: _ => env.IsUpper c

/-- `lcFirst` (lines 244-252). -/
def lcFirst (env : Env) (str : String) : String :=
  match str.data with
  | [] => str
  | c :: cs => String.mk (env.ToLower c :: cs)

/-- The loop of `setTagMaps` (lines 218-235) over the fields from position `i` on. -/
def setTagMapsLoop (env : Env) : List StructField → Nat → GoMap → GoMap
  | [], _, tagMap => tagMap
  | fieldStruct :: rest, i, tagMap =>
    if !IsExported env fieldStruct.Name then
      setTagMapsLoop env rest (i + 1) tagMap
    else
      let str := fieldStruct.TagGet TagName
      if str = "" then
        setTagMapsLoop env rest (i + 1) (tagMap.set (lcFirst env fieldStruct.Name) i)
      else if str = "-" then
        setTagMapsLoop env rest (i + 1) tagMap
      else
        setTagMapsLoop env rest (i + 1) (tagMap.set str i)

/-- `setTagMaps` (lines 215-238).  `NumField` panics on a type that is not a struct;
the panic message is the error. -/
def setTagMaps (env : Env) : GoType → Except String GoMap
  | .struct s => .ok (setTagMapsLoop env s.fields 0 [])
  | _ => .error "reflect: NumField of non-struct type"

/-- `sync.Map.Load` on the cache. -/
def cacheLoad : List (GoType × GoMap) → GoType → Option GoMap
  | [], _ => none
  | (t1, m) :: c, t => if t1 = t then some m else cacheLoad c t

/-- `sync.Map.Store` on the cache. -/
def cacheStore : List (GoType × GoMap) → GoType → GoMap → List (GoType × GoMap)
  | [], t, m => [(t, m)]
  | (t1, m1) :: c, t, m => if t1 = t then (t, m) :: c else (t1, m1) :: cacheStore c t m

/-- `getStructMapping` (lines 30-38). -/
def getStructMapping (env : Env) (reflectType : GoType) (w : World) : Res World GoMap :=
  match cacheLoad w.structMappingContainer reflectType with
  | some value => .ret value w
  | none =>
    match setTagMaps env reflectType with
    | .error msg => .panicked msg w
    | .ok value =>
      .ret value { w with
        structMappingContainer := cacheStore w.structMappingContainer reflectType value }

/-! ## Connection manager (`orm.go`, lines 63-120) -/

/-- `o.Lock()`: blocks while the mutex is held. -/
def Orm.Lock (w : World) : Res World Unit :=
  if w.o.locked then .blocked w else .ret () { w with o := { w.o with locked := true } }

/-- `o.Unlock()`: releasing a mutex that is not held is a run-time error. -/
def Orm.Unlock (w : World) : Res World Unit :=
  if w.o.locked then .ret () { w with o := { w.o with locked := false } }
  else .panicked "sync: unlock of unlocked mutex" w

/-- The four default assignments of `connect` (lines 69-83). -/
def applyDefaults (o : Orm) : Orm :=
  let o1 := if o.MaxTimeout = 0 then { o with MaxTimeout := 30 } else o
  let o2 := if o1.MaxReadTimeout = 0 then { o1 with MaxReadTimeout := 300 } else o1
  let o3 := if o2.Charset = "" then { o2 with Charset := "utf8mb4" } else o2
  if o3.Port = 0 then { o3 with Port := 3301 } else o3

/-- The data source name built by `fmt.Sprintf` (lines 85-94). -/
def dsn (o : Orm) : String :=
  o.User ++ ":" ++ o.Pass ++ "@tcp(" ++ o.Host ++ ":" ++ toString o.Port ++ ")/" ++
    o.DatabaseName ++ "?timeout=" ++ toString o.MaxTimeout ++ "s&readTimeout=" ++
    toString o.MaxReadTimeout ++ "s&charset=" ++ o.Charset

/-- `Orm.connect` (lines 63-109).  The only `Unlock` is the one deferred at line 106,
which is reached on the success path alone. -/
def Orm.connect (env : Env) (w : World) : Res World (Option GoError) :=
  (Orm.Lock w).bind fun _ w1 =>
    if w1.o.Db.isSome then
      .ret none w1
    else
      let o := applyDefaults w1.o
      let w2 := { w1 with o := o, opened := w1.opened + 1 }
      match env.sqlOpen w1.opened (dsn o) with
      | some msg =>
        .ret (some (.other msg))
          { w2 with logged := w2.logged ++ ["connect " ++ o.DatabaseName ++ " error: " ++ msg] }
      | none =>
        let db : DB :=
          { id := w1.opened, maxIdleConns := o.MaxIdleConnection,
            maxOpenConns := o.MaxOpenConnection, closed := false }
        (Orm.Unlock { w2 with o := { o with Db := some db } }).bind fun _ w3 => .ret none w3

/-- `o.Db.Close()` when `o.Db` is not nil (lines 115-117). -/
def closeDb (w : World) : World :=
  match w.o.Db with
  | none => w
  | some db => { w with o := { w.o with Db := some { db with closed := true } } }

/-- `Orm.reConnect` (lines 111-120).  Line 113 defers a second `Lock`, which runs
when `connect` has returned or panicked. -/
def Orm.reConnect (env : Env) (w : World) : Res World (Option GoError) :=
  (Orm.Lock w).bind fun _ w1 =>
    match Orm.connect env (closeDb w1) with
    | .ret r w2 => (Orm.Lock w2).bind fun _ w3 => .ret r w3
    | .panicked msg w2 => (Orm.Lock w2).bind fun _ w3 => .panicked msg w3
    | .blocked w2 => .blocked w2

/-! ## Cursors (`*sql.Rows`) -/

/-- The calls a cursor can receive. -/
inductive RowsCall where
  | Next
  | Columns
  | Scan
  | Close
  deriving DecidableEq, Repr

/-- The object behind a `*sql.Rows`: column names, the rows not yet reached, the row
made current by the last `Next`, whether it is closed, and the calls made on it so
far (oldest first). -/
structure Rows where
  columns : List String
  pending : List (List Val)
  current : Option (List Val)
  closed : Bool
  calls : List RowsCall
  deriving DecidableEq, Repr

/-- `rows.Next()`: makes the next row current; at the end of the rows it closes the
cursor and reports false. -/
def Rows.Next (rs : Rows) : Bool × Rows :=
  let rs1 := { rs with calls := rs.calls ++ [RowsCall.Next] }
  if rs1.closed then (false, rs1)
  else
    match rs1.pending with
    | [] => (false, { rs1 with current := none, closed := true })
    | r :: rest => (true, { rs1 with current := some r, pending := rest })

/-- `rows.Columns()`. -/
def Rows.Columns (rs : Rows) : Except GoError (List String) × Rows :=
  let rs1 := { rs with calls := rs.calls ++ [RowsCall.Columns] }
  if rs1.closed then (.error (.other "sql: Rows are closed"), rs1) else (.ok rs1.columns, rs1)

/-- `rows.Close()`. -/
def Rows.Close (rs : Rows) : Rows :=
  { rs with calls := rs.calls ++ [RowsCall.Close], current := none, closed := true }

/-- A scan destination: the discard variable `&ignored`, or the address of field
`idx` of the record being filled, a pointer to a variable of type `ty`. -/
inductive Target where
  | ignored
  | field (idx : Nat) (ty : FieldType)
  deriving DecidableEq, Repr

/-- The assignment loop of `rows.Scan`: column `i` onwards, destination by
destination, stopping at the first conversion error. -/
def scanAssign (env : Env) (columns : List String) :
    List Target → List Val → Nat → List Val → Option GoError × List Val
  | [], _, _, record => (none, record)
  | _ :: _, [], _, record => (none, record)
  | .ignored :: dest, _ :: lastcols, i, record =>
    scanAssign env columns dest lastcols (i + 1) record
  | .field idx ty :: dest, sv :: lastcols, i, record =>
    match env.convertAssign ty sv with
    | .error msg =>
      (some (.other ("sql: Scan error on column index " ++ toString i ++ ", name \"" ++
        columns.getD i "" ++ "\": " ++ msg)), record)
    | .ok v => scanAssign env columns dest lastcols (i + 1) (record.set idx v)

/-- `rows.Scan(dest...)` writing into the fields of `record`. -/
def Rows.Scan (rs : Rows) (env : Env) (dest : List Target) (record : List Val) :
    Option GoError × List Val × Rows :=
  let rs1 := { rs with calls := rs.calls ++ [RowsCall.Scan] }
  if rs1.closed then (some (.other "sql: Rows are closed"), record, rs1)
  else
    match rs1.current with
    | none => (some (.other "sql: Scan called without calling Next"), record, rs1)
    | some lastcols =>
      if dest.length ≠ lastcols.length then
        (some (.other ("sql: expected " ++ toString lastcols.length ++
          " destination arguments in Scan, not " ++ toString dest.length)), record, rs1)
      else
        let out := scanAssign env rs1.columns dest lastcols 0 record
        (out.1, out.2, rs1)

/-! ## Query facade (`orm.go`, lines 40-61) -/

/-- `o.Db.Query(query, args...)`: a closed handle answers with the error
`sql: database is closed`, otherwise the driver decides. -/
def DbQuery (env : Env) (w : World) (db : DB) (query : String) (args : List Val) :
    Except String Rows :=
  if db.closed then .error "sql: database is closed"
  else
    match env.driverQuery w.queried db.id query args with
    | .error msg => .error msg
    | .ok (columns, data) =>
      .ok { columns := columns, pending := data, current := none, closed := false, calls := [] }

/-- The closure passed to `tryAgain` at lines 51-58; the second component of the
state is the captured variable `rows`. -/
def queryAttempt (env : Env) (query : String) (args : List Val) :
    World × Option Rows → Res (World × Option Rows) (Option GoError)
  | (w, _) =>
    match w.o.Db with
    | none => .panicked "invalid memory address or nil pointer dereference" (w, none)
    | some db =>
      let w1 := { w with queried := w.queried + 1 }
      match DbQuery env w db query args with
      | .ok rows => .ret none (w1, some rows)
      | .error msg =>
        if msg = "sql: database is closed" then
          match Orm.reConnect env w1 with
          | .ret _ w2 => .ret (some (.other msg)) (w2, none)
          | .panicked m w2 => .panicked m (w2, none)
          | .blocked w2 => .blocked (w2, none)
        else .ret (some (.other msg)) (w1, none)

/-- `Orm.query` (lines 40-61): the pair `(rows, err)` it returns. -/
def Orm.query (env : Env) (w : World) (query : String) (args : List Val) :
    Res World (Option Rows × Option GoError) :=
  let connected : Res World (Option GoError) :=
    if w.o.Db.isNone then tryAgain env.MaxTries (Orm.connect env) w else .ret none w
  match connected with
  | .ret (some err) w1 => .ret (none, some err) w1
  | .panicked m w1 => .panicked m w1
  | .blocked w1 => .blocked w1
  | .ret none w1 =>
    match tryAgain env.MaxTries (queryAttempt env query args) (w1, none) with
    | .ret err (w2, rows) => .ret (rows, err) w2
    | .panicked m (w2, _) => .panicked m w2
    | .blocked (w2, _) => .blocked w2

/-! ## Row scanner (`orm.go`, lines 122-213) -/

/-- The fields of a struct variable, `none` for a variable that is not a struct. -/
def Stored.structFields : Stored → Option (List StructField)
  | .struct s _ => some s.fields
  | _ => none

/-- The field values of a struct variable. -/
def Stored.record : Stored → List Val
  | .struct _ fields => fields
  | _ => []

/-- The variable after its field values have been replaced. -/
def Stored.withRecord : Stored → List Val → Stored
  | .struct s _, fields => .struct s fields
  | v, _ => v

/-- The column loop shared by `QueryRow` (lines 152-158) and `QueryRows` (lines
198-204): one scan destination per column.  `Field(idx)` panics on a value that is
not a struct or on an index out of range, and `Interface()` panics on an unexported
field; the panic message is the error. -/
def bindScanArgs (env : Env) (maps : GoMap) (fields : Option (List StructField)) :
    List String → Except String (List Target)
  | [] => .ok []
  | column :: rest =>
    match maps.get? column with
    | none =>
      match bindScanArgs env maps fields rest with
      | .error msg => .error msg
      | .ok scanArgs => .ok (.ignored :: scanArgs)
    | some idx =>
      match fields with
      | none => .error "reflect: call of reflect.Value.Field on non-struct Value"
      | some fs =>
        match fs[idx]? with
        | none => .error "reflect: Field index out of range"
        | some f =>
          if IsExported env f.Name then
            match bindScanArgs env maps fields rest with
            | .error msg => .error msg
            | .ok scanArgs => .ok (.field idx f.Typ :: scanArgs)
          else
            .error "reflect.Value.Interface: cannot return value obtained from unexported field or method"

/-- What a scanning call leaves behind: the error it returns, the destination as the
caller sees it afterwards, and the cursor. -/
structure ScanOutcome where
  err : Option GoError
  result : GoValue
  rows : Rows
  deriving DecidableEq, Repr

/-- Lines 130-160 of `QueryRow`, entered with a cursor and no error.  The
destination is looked at only after `Next` and `Columns`; a pointer is followed
whatever it points to, and a nil pointer makes `Type()` panic. -/
def scanOne (env : Env) (w : World) (result : GoValue) (rows : Rows) :
    Res World ScanOutcome :=
  let next := rows.Next
  if !next.1 then
    .ret { err := some .ErrNoData, result := result, rows := next.2 } w
  else
    let cols := next.2.Columns
    match cols.1 with
    | .error err => .ret { err := some err, result := result, rows := cols.2 } w
    | .ok columns =>
      match result with
      | .ptr resultValue =>
        (getStructMapping env resultValue.TypeOf w).bind fun maps w1 =>
          match bindScanArgs env maps resultValue.structFields columns with
          | .error msg => .panicked msg w1
          | .ok scanArgs =>
            let out := cols.2.Scan env scanArgs resultValue.record
            .ret { err := out.1, result := .ptr (resultValue.withRecord out.2.1),
                   rows := out.2.2 } w1
      | .nilPtr _ => .panicked "reflect: call of reflect.Value.Type on zero Value" w
      | _ =>
        .ret { err := some .ErrParamMustBeStructPointer, result := result, rows := cols.2 } w

/-- The deferred `rows.Close()` (lines 124 and 165) applied to what the body did. -/
def closeRows (r : Res World ScanOutcome) : Res World ScanOutcome :=
  match r with
  | .ret out w => .ret { out with rows := out.rows.Close } w
  | .panicked msg w => .panicked msg w
  | .blocked w => .blocked w

/-- `Orm.QueryRow` (lines 122-161).  When `query` returns no cursor the deferred
`rows.Close()` runs on a nil pointer. -/
def Orm.QueryRow (env : Env) (w : World) (result : GoValue) (query : String)
    (args : List Val) : Res World ScanOutcome :=
  match Orm.query env w query args with
  | .panicked msg w1 => .panicked msg w1
  | .blocked w1 => .blocked w1
  | .ret (none, _) w1 => .panicked "invalid memory address or nil pointer dereference" w1
  | .ret (some rows, some err) w1 =>
    closeRows (.ret { err := some err, result := result, rows := rows } w1)
  | .ret (some rows, none) w1 => closeRows (scanOne env w1 result rows)

/-- The `for rows.Next()` loop of `QueryRows` (lines 206-211): `element` is the one
buffer every row is scanned into, `items` the destination slice. -/
def appendLoop (env : Env) (scanArgs : List Target) (rows : Rows) (element : List Val)
    (items : Option (List (List Val))) : Option GoError × Rows × Option (List (List Val)) :=
  if _h : rows.Next.1 = true then
    let out := rows.Next.2.Scan env scanArgs element
    match out.1 with
    | some err => (some err, out.2.2, items)
    | none => appendLoop env scanArgs out.2.2 out.2.1 (some (items.getD [] ++ [out.2.1]))
  else
    (none, rows.Next.2, items)
termination_by rows.pending.length
decreasing_by
  simp only [Rows.Next] at _h
  simp only [Rows.Scan, Rows.Next]
  split at _h
  · simp at _h
  · split at _h
    · simp at _h
    · rename_i r rest hp
      simp only [hp] at *
      split <;> (try split) <;> (try split) <;> simp_all

/-- Lines 171-212 of `QueryRows`, entered with a cursor and no error.  The three
checks of lines 177-190 are the pattern matches: the destination is a pointer that is
not nil, what it points to is a slice, and the element type of the slice is a
struct; every other destination is answered with `ErrParamMustBeSlicePointer`. -/
def scanAll (env : Env) (w : World) (result : GoValue) (rows : Rows) :
    Res World ScanOutcome :=
  let cols := rows.Columns
  match cols.1 with
  | .error err => .ret { err := some err, result := result, rows := cols.2 } w
  | .ok columns =>
    match result with
    | .ptr (.slice elementType items) =>
      match elementType with
      | .struct s =>
        (getStructMapping env elementType w).bind fun maps w1 =>
          let element := s.fields.map fun f => f.Typ.zero
          match bindScanArgs env maps (some s.fields) columns with
          | .error msg => .panicked msg w1
          | .ok scanArgs =>
            let out := appendLoop env scanArgs cols.2 element items
            .ret { err := out.1, result := .ptr (.slice elementType out.2.2),
                   rows := out.2.1 } w1
      | _ =>
        .ret { err := some .ErrParamMustBeSlicePointer, result := result, rows := cols.2 } w
    | _ =>
      .ret { err := some .ErrParamMustBeSlicePointer, result := result, rows := cols.2 } w

/-- `Orm.QueryRows` (lines 163-213). -/
def Orm.QueryRows (env : Env) (w : World) (result : GoValue) (query : String)
    (args : List Val) : Res World ScanOutcome :=
  match Orm.query env w query args with
  | .panicked msg w1 => .panicked msg w1
  | .blocked w1 => .blocked w1
  | .ret (none, _) w1 => .panicked "invalid memory address or nil pointer dereference" w1
  | .ret (some rows, some err) w1 =>
    closeRows (.ret { err := some err, result := result, rows := rows } w1)
  | .ret (some rows, none) w1 => closeRows (scanAll env w1 result rows)

/-! ## Vocabulary of the specification -/

/-- A field the specification calls public and not omitted: its name is exported and
its `orm` tag is not `-`. -/
def specIncluded (env : Env) (f : StructField) : Bool :=
  IsExported env f.Name && !(f.TagGet TagName == "-")

/-- The name the specification maps a field under: its `orm` tag when it has one,
else its field name with the first letter in lower case. -/
def specMappedName (env : Env) (f : StructField) : String :=
  if f.TagGet TagName = "" then lcFirst env f.Name else f.TagGet TagName

/-- Position of the last field among `fs` (the first of which has position `i`) that
is public, not omitted and mapped under `k`. -/
def specLastPos (env : Env) : List StructField → Nat → String → Option Nat
  | [], _, _ => none
  | f :: rest, i, k =>
    match specLastPos env rest (i + 1) k with
    | some v => some v
    | none => if specIncluded env f ∧ specMappedName env f = k then some i else none

/-- The mapped names of the public, non-omitted fields, in declaration order. -/
def specNames (env : Env) (fs : List StructField) : List String :=
  (fs.filter (specIncluded env)).map (specMappedName env)

/-- Consistency of the mapping cache: every entry is what `setTagMaps` computes for
its type.  The empty cache is consistent and `getStructMapping` keeps it so. -/
def CacheOK (env : Env) (c : List (GoType × GoMap)) : Prop :=
  ∀ p ∈ c, setTagMaps env p.1 = .ok p.2

/-- A cursor as the driver hands it out: open, before its first row, untouched. -/
def Rows.fresh (rs : Rows) : Prop :=
  rs.closed = false ∧ rs.current = none ∧ rs.calls = []

/-- The scan destination the column loop binds for column `c`: the field the mapping
sends `c` to, or the discard variable when the mapping does not hold `c`. -/
def specTarget (m : GoMap) (fs : List StructField) (c : String) : Target :=
  match m.get? c with
  | none => .ignored
  | some idx =>
    match fs[idx]? with
    | none => .ignored
    | some f => .field idx f.Typ

/-! ## Concrete inputs -/

/-- A conversion in the style of `database/sql`: integers into `int64` fields, strings
into `string` fields, anything into `interface{}` fields. -/
def demoConvert : FieldType → Val → Except String Val
  | .int, .int i => .ok (.int i)
  | .string, .str s => .ok (.str s)
  | .iface, v => .ok v
  | _, _ => .error "unsupported Scan"

/-- An environment with `MaxTries = 1`, ASCII letter tables, an `sql.Open` that
always succeeds and a driver that answers every query with two rows of columns
`id` and `name`. -/
def demoEnv : Env :=
  { MaxTries := 1
    IsUpper := Char.isUpper
    ToLower := Char.toLower
    sqlOpen := fun _ _ => none
    driverQuery := fun _ _ _ _ =>
      .ok (["id", "name"], [[.int 1, .str "a"], [.int 2, .str "b"]])
    convertAssign := demoConvert }

/-- A profile as `RegisterDatabase` creates it: no port, no charset, no timeouts, not
connected. -/
def demoProfile : Orm :=
  { Host := "db", Port := 0, User := "u", Pass := "p", Charset := "", DatabaseName := "shop",
    MaxIdleConnection := 2, MaxOpenConnection := 4, MaxTimeout := 0, MaxReadTimeout := 0,
    locked := false, Db := none }

/-- The state of a fresh process holding `demoProfile`. -/
def demoWorld : World :=
  { o := demoProfile, structMappingContainer := [], logged := [], opened := 0, queried := 0 }

/-- A record shape with an untagged field, a tagged one, an unexported one and an
omitted one. -/
def userShape : Shape :=
  { name := "User"
    fields :=
      [ { Name := "Id", Typ := .int, Tag := [] },
        { Name := "Name", Typ := .string, Tag := [("orm", "name")] },
        { Name := "secret", Typ := .string, Tag := [] },
        { Name := "Skip", Typ := .string, Tag := [("orm", "-")] } ] }

/-- A record shape whose two public fields carry the same tag. -/
def twinShape : Shape :=
  { name := "Twin"
    fields :=
      [ { Name := "A", Typ := .int, Tag := [("orm", "x")] },
        { Name := "B", Typ := .int, Tag := [("orm", "x")] } ] }

/-- The state after `demoProfile` has connected once: defaults applied, handle 0
open, lock free. -/
def connectedWorld : World :=
  { o := { applyDefaults demoProfile with
            Db := some { id := 0, maxIdleConns := 2, maxOpenConns := 4, closed := false } }
    structMappingContainer := [], logged := [], opened := 1, queried := 0 }

/-- An environment whose `sql.Open` always fails. -/
def refusingEnv : Env :=
  { demoEnv with sqlOpen := fun _ _ => some "invalid DSN" }

/-- An environment whose driver fails the first query with the closed-connection
error and answers every later one. -/
def closedOnceEnv : Env :=
  { demoEnv with
    driverQuery := fun n _ _ _ =>
      if n = 0 then .error "sql: database is closed"
      else .ok (["id", "name"], [[.int 1, .str "a"]]) }

/-- An environment whose driver answers with one row of a join: two columns, both
named `id`. -/
def joinEnv : Env :=
  { demoEnv with driverQuery := fun _ _ _ _ => .ok (["id", "id"], [[.int 1, .int 2]]) }

/-- An environment whose driver answers with one row of the single column `x`. -/
def twinEnv : Env :=
  { demoEnv with driverQuery := fun _ _ _ _ => .ok (["x"], [[.int 7]]) }

/-- An environment whose driver answers with columns `id` and `name` and no row. -/
def emptyEnv : Env :=
  { demoEnv with driverQuery := fun _ _ _ _ => .ok (["id", "name"], []) }

/-- A `User` record with every field set. -/
def demoUser : List Val := [.int 0, .str "old", .str "s", .str "k"]

/-! ## Retry executor -/

/-- While every attempt from invocation `c` on fails, `n` more loop iterations make
`n` more invocations and keep the error of the last one. -/
theorem tryAgainLoop_all_fail (outs : Nat → Option GoError) :
    ∀ (n c : Nat) (e : GoError), (∀ i, c ≤ i → i < c + n → outs i ≠ none) →
      tryAgainLoop (seqCaller outs) n (some e) c
        = .ret (if n = 0 then some e else outs (c + n - 1)) (c + n) := by
  intro n
  induction n with
  | zero => intro c e _; simp [tryAgainLoop]
  | succ n ih =>
    intro c e h
    have hc : outs c ≠ none := h c (le_refl c) (by omega)
    obtain ⟨e1, he1⟩ := Option.ne_none_iff_exists'.mp hc
    have hrest : ∀ i, c + 1 ≤ i → i < c + 1 + n → outs i ≠ none :=
      fun i h1 h2 => h i (by omega) (by omega)
    rw [tryAgainLoop]
    simp only [seqCaller, he1]
    have := ih (c + 1) e1 hrest
    simp only [seqCaller] at this
    rw [this]
    by_cases hn : n = 0
    · subst hn; simp [he1]
    · have h1 : c + 1 + n - 1 = c + (n + 1) - 1 := by omega
      have h2 : c + 1 + n = c + (n + 1) := by omega
      simp [hn, h1, h2]

/-- When the first success from invocation `c` on is invocation `j`, reached within
the `n` remaining iterations, the loop stops right after it. -/
theorem tryAgainLoop_first_success (outs : Nat → Option GoError) :
    ∀ (n c j : Nat) (e : GoError), c ≤ j → j < c + n → outs j = none →
      (∀ i, c ≤ i → i < j → outs i ≠ none) →
      tryAgainLoop (seqCaller outs) n (some e) c = .ret none (j + 1) := by
  intro n
  induction n with
  | zero => intro c j e h1 h2; omega
  | succ n ih =>
    intro c j e h1 h2 hj hfail
    rw [tryAgainLoop]
    by_cases hcj : c = j
    · subst hcj
      simp [seqCaller, hj]
    · have hc : outs c ≠ none := hfail c (le_refl c) (by omega)
      obtain ⟨e1, he1⟩ := Option.ne_none_iff_exists'.mp hc
      simp only [seqCaller, he1]
      have := ih (c + 1) j e1 (by omega) (by omega) hj (fun i h3 h4 => hfail i (by omega) h4)
      simpa [seqCaller] using this

/-- C4: for `MaxTries >= 0` and an operation given by its sequence of attempt
outcomes, `tryAgain` invokes an always-failing operation exactly `1 + MaxTries` times
and returns the error of the last attempt; when the first success is attempt `k`
with `k <= 1 + MaxTries`, it invokes the operation exactly `k` times and returns
nil.  The second component of the result is the number of invocations made. -/
theorem tryAgain_invocations (MaxTries : Int) (hM : 0 ≤ MaxTries)
    (outs : Nat → Option GoError) :
    ((∀ i : Nat, (i : Int) < 1 + MaxTries → outs i ≠ none) →
      ∃ (n : Nat) (e : GoError), (n : Int) = 1 + MaxTries ∧ outs (n - 1) = some e ∧
        tryAgain MaxTries (seqCaller outs) 0 = .ret (some e) n) ∧
    (∀ k : Nat, 1 ≤ k → (k : Int) ≤ 1 + MaxTries → outs (k - 1) = none →
      (∀ i, i < k - 1 → outs i ≠ none) →
      tryAgain MaxTries (seqCaller outs) 0 = .ret none k) := by
  obtain ⟨m, rfl⟩ := Int.eq_ofNat_of_zero_le hM
  constructor
  · intro hfail
    have hall : ∀ i, i < 1 + m → outs i ≠ none := fun i hi => hfail i (by omega)
    obtain ⟨e0, he0⟩ := Option.ne_none_iff_exists'.mp (hall 0 (by omega))
    have hloop := tryAgainLoop_all_fail outs m 1 e0 (fun i _ h2 => hall i h2)
    obtain ⟨e, he⟩ := Option.ne_none_iff_exists'.mp (hall m (by omega))
    refine ⟨1 + m, e, by push_cast; ring, by simpa using he, ?_⟩
    simp only [tryAgain, seqCaller, he0, Int.toNat_ofNat]
    simp only [seqCaller] at hloop
    rw [show (0 : Nat) + 1 = 1 from rfl, hloop]
    by_cases hm : m = 0
    · subst hm
      simp only [he0] at he
      simp [he]
    · simp [hm, he]
  · intro k hk1 hk2 hk hfail
    by_cases hk0 : k = 1
    · subst hk0
      simp only [Nat.sub_self] at hk
      simp [tryAgain, seqCaller, hk]
    · obtain ⟨e0, he0⟩ := Option.ne_none_iff_exists'.mp (hfail 0 (by omega))
      have hloop := tryAgainLoop_first_success outs m 1 (k - 1) e0 (by omega) (by omega) hk
        (fun i _ h2 => hfail i h2)
      simp only [tryAgain, seqCaller, he0, Int.toNat_ofNat]
      simp only [seqCaller] at hloop
      rw [show (0 : Nat) + 1 = 1 from rfl, hloop]
      have : k - 1 + 1 = k := by omega
      rw [this]

/-- C4 at `MaxTries = 1`: an operation that always fails is invoked twice; one that
fails once and then succeeds is invoked twice and yields nil. -/
theorem tryAgain_invocations_witness :
    (∃ (n : Nat) (e : GoError), (n : Int) = 1 + 1 ∧
        (fun _ => some GoError.ErrNoData : Nat → Option GoError) (n - 1) = some e ∧
        tryAgain 1 (seqCaller fun _ => some GoError.ErrNoData) 0 = .ret (some e) n) ∧
    tryAgain 1 (seqCaller fun i => if i = 0 then some GoError.ErrNoData else none) 0
      = .ret none 2 :=
  ⟨(tryAgain_invocations 1 (by decide) (fun _ => some GoError.ErrNoData)).1
      (fun _ _ => by simp),
   (tryAgain_invocations 1 (by decide) (fun i => if i = 0 then some GoError.ErrNoData else none)).2
      2 (by decide) (by decide) (by simp) (fun i hi => by
        have : i = 0 := by omega
        simp [this])⟩

/-! ## Mapping cache -/

/-- Lookup after an assignment. -/
theorem GoMap.get?_set (m : GoMap) (k : String) (v : Nat) (k1 : String) :
    (m.set k v).get? k1 = if k = k1 then some v else m.get? k1 := by
  induction m with
  | nil => simp [GoMap.set, GoMap.get?]
  | cons p m ih =>
    obtain ⟨k2, v2⟩ := p
    by_cases h : k2 = k
    · subst h
      by_cases h1 : k2 = k1 <;> simp [GoMap.set, GoMap.get?, h1]
    · by_cases h1 : k = k1
      · subst h1
        simp [GoMap.set, GoMap.get?, h, ih]
      · by_cases h2 : k2 = k1
        · subst h2
          simp [GoMap.set, GoMap.get?, h, h1]
        · simp [GoMap.set, GoMap.get?, h, h1, h2, ih]

/-- An assignment adds an entry exactly when the key is new. -/
theorem GoMap.length_set (m : GoMap) (k : String) (v : Nat) :
    (m.set k v).length = if m.get? k = none then m.length + 1 else m.length := by
  induction m with
  | nil => simp [GoMap.set, GoMap.get?]
  | cons p m ih =>
    obtain ⟨k2, v2⟩ := p
    by_cases h : k2 = k
    · simp [GoMap.set, GoMap.get?, h]
    · simp only [GoMap.set, GoMap.get?, h, if_false, List.length_cons, ih]
      split <;> rfl

/-- One loop iteration of `setTagMaps`, in the vocabulary of the specification. -/
theorem setTagMapsLoop_cons (env : Env) (f : StructField) (rest : List StructField)
    (i : Nat) (m : GoMap) :
    setTagMapsLoop env (f :: rest) i m =
      setTagMapsLoop env rest (i + 1)
        (if specIncluded env f then m.set (specMappedName env f) i else m) := by
  rw [setTagMapsLoop]
  by_cases h1 : IsExported env f.Name
  · by_cases h2 : f.TagGet TagName = ""
    · have h3 : ¬ ("" : String) = "-" := by decide
      simp [specIncluded, specMappedName, h1, h2, h3]
    · by_cases h3 : f.TagGet TagName = "-"
      · simp [specIncluded, specMappedName, h1, h2, h3]
      · simp [specIncluded, specMappedName, h1, h2, h3]
  · simp [specIncluded, h1]

/-- The lookup in the computed mapping: the last public, non-omitted field mapped
under `k` if there is one, else what the map held before. -/
theorem setTagMapsLoop_get? (env : Env) (k : String) :
    ∀ (fs : List StructField) (i : Nat) (m : GoMap),
      (setTagMapsLoop env fs i m).get? k =
        match specLastPos env fs i k with
        | some v => some v
        | none => m.get? k := by
  intro fs
  induction fs with
  | nil => intro i m; simp [setTagMapsLoop, specLastPos]
  | cons f rest ih =>
    intro i m
    rw [setTagMapsLoop_cons, ih, specLastPos]
    cases h : specLastPos env rest (i + 1) k with
    | some v => simp
    | none =>
      by_cases hin : specIncluded env f = true
      · by_cases hk : specMappedName env f = k
        · simp [hin, hk, GoMap.get?_set]
        · simp [hin, hk, GoMap.get?_set]
      · simp [hin]

/-- The search of `specLastPos` fails exactly when no field is public, non-omitted
and mapped under `k`. -/
theorem specLastPos_eq_none (env : Env) (k : String) :
    ∀ (fs : List StructField) (i : Nat),
      specLastPos env fs i k = none ↔
        ∀ (j : Nat) (f : StructField), fs[j]? = some f → specIncluded env f = true →
          specMappedName env f ≠ k := by
  intro fs
  induction fs with
  | nil => intro i; simp [specLastPos]
  | cons f rest ih =>
    intro i
    rw [specLastPos]
    constructor
    · intro h j g hg hi
      cases hr : specLastPos env rest (i + 1) k with
      | some v1 => rw [hr] at h; cases h
      | none =>
        rw [hr] at h
        simp only at h
        cases j with
        | zero =>
          simp only [List.getElem?_cons_zero, Option.some.injEq] at hg
          subst hg
          intro hn
          simp [hi, hn] at h
        | succ j1 =>
          simp only [List.getElem?_cons_succ] at hg
          exact (ih (i + 1)).mp hr j1 g hg hi
    · intro h
      have hr : specLastPos env rest (i + 1) k = none :=
        (ih (i + 1)).mpr (fun j g hg hi => h (j + 1) g (by simpa using hg) hi)
      rw [hr]
      simp only
      have h0 := h 0 f (by simp)
      by_cases hi : specIncluded env f = true
      · simp [hi, h0 hi]
      · simp [hi]

/-- What `specLastPos` finds: a position in range, holding a public, non-omitted
field mapped under `k`, after which no such field comes. -/
theorem specLastPos_eq_some (env : Env) (k : String) :
    ∀ (fs : List StructField) (i v : Nat),
      specLastPos env fs i k = some v ↔
        ∃ (j : Nat) (f : StructField), v = i + j ∧ fs[j]? = some f ∧
          specIncluded env f = true ∧ specMappedName env f = k ∧
          ∀ (j2 : Nat) (f2 : StructField), j < j2 → fs[j2]? = some f2 →
            specIncluded env f2 = true → specMappedName env f2 ≠ k := by
  intro fs
  induction fs with
  | nil => intro i v; simp [specLastPos]
  | cons f rest ih =>
    intro i v
    rw [specLastPos]
    constructor
    · intro h
      cases hr : specLastPos env rest (i + 1) k with
      | some v1 =>
        rw [hr] at h
        simp only [Option.some.injEq] at h
        subst h
        obtain ⟨j, g, hv, hg, hi, hn, hlast⟩ := (ih (i + 1) v1).mp hr
        refine ⟨j + 1, g, by omega, by simpa using hg, hi, hn, ?_⟩
        intro j2 f2 hj2 hf2 hi2
        obtain ⟨j3, rfl⟩ : ∃ j3, j2 = j3 + 1 := ⟨j2 - 1, by omega⟩
        exact hlast j3 f2 (by omega) (by simpa using hf2) hi2
      | none =>
        rw [hr] at h
        simp only at h
        split at h
        · rename_i hc
          simp only [Option.some.injEq] at h
          refine ⟨0, f, by omega, by simp, hc.1, hc.2, ?_⟩
          intro j2 f2 hj2 hf2 hi2
          obtain ⟨j3, rfl⟩ : ∃ j3, j2 = j3 + 1 := ⟨j2 - 1, by omega⟩
          exact (specLastPos_eq_none env k rest (i + 1)).mp hr j3 f2 (by simpa using hf2) hi2
        · cases h
    · rintro ⟨j, g, hv, hg, hi, hn, hlast⟩
      cases j with
      | zero =>
        simp only [List.getElem?_cons_zero, Option.some.injEq] at hg
        subst hg
        have hr : specLastPos env rest (i + 1) k = none :=
          (specLastPos_eq_none env k rest (i + 1)).mpr
            (fun j2 f2 hf2 hi2 => hlast (j2 + 1) f2 (by omega) (by simpa using hf2) hi2)
        rw [hr]
        simp [hi, hn, hv]
      | succ j1 =>
        simp only [List.getElem?_cons_succ] at hg
        have hr : specLastPos env rest (i + 1) k = some v :=
          (ih (i + 1) v).mpr ⟨j1, g, by omega, hg, hi, hn,
            fun j2 f2 hj2 hf2 hi2 =>
              hlast (j2 + 1) f2 (by omega) (by simpa using hf2) hi2⟩
        rw [hr]

/-- With pairwise distinct mapped names, two public, non-omitted fields mapped under
the same name are the same field. -/
theorem specNames_nodup_index (env : Env) :
    ∀ (fs : List StructField), (specNames env fs).Nodup →
      ∀ (j1 j2 : Nat) (f1 f2 : StructField), fs[j1]? = some f1 → fs[j2]? = some f2 →
        specIncluded env f1 = true → specIncluded env f2 = true →
        specMappedName env f1 = specMappedName env f2 → j1 = j2 := by
  intro fs
  induction fs with
  | nil => intro _ j1 j2 f1 f2 h1; simp at h1
  | cons f rest ih =>
    intro hnd j1 j2 f1 f2 h1 h2 hi1 hi2 hn
    have hmem : ∀ (j : Nat) (g : StructField), rest[j]? = some g → specIncluded env g = true →
        specMappedName env g ∈ specNames env rest := by
      intro j g hg hi
      unfold specNames
      exact List.mem_map.mpr ⟨g, List.mem_filter.mpr ⟨List.getElem?_mem hg, hi⟩, rfl⟩
    have hrest : (specNames env rest).Nodup := by
      unfold specNames at hnd ⊢
      by_cases hf : specIncluded env f = true
      · simp only [List.filter_cons, hf, if_true, List.map_cons, List.nodup_cons] at hnd
        exact hnd.2
      · simpa [List.filter_cons, hf] using hnd
    have hhead : specIncluded env f = true → specMappedName env f ∉ specNames env rest := by
      intro hf
      unfold specNames at hnd ⊢
      simp only [List.filter_cons, hf, if_true, List.map_cons, List.nodup_cons] at hnd
      exact hnd.1
    cases j1 with
    | zero =>
      cases j2 with
      | zero => rfl
      | succ j2 =>
        simp only [List.getElem?_cons_zero, Option.some.injEq] at h1
        simp only [List.getElem?_cons_succ] at h2
        subst h1
        exact absurd (hn ▸ hmem j2 f2 h2 hi2) (hhead hi1)
    | succ j1 =>
      cases j2 with
      | zero =>
        simp only [List.getElem?_cons_zero, Option.some.injEq] at h2
        simp only [List.getElem?_cons_succ] at h1
        subst h2
        exact absurd (hn ▸ hmem j1 f1 h1 hi1) (hhead hi2)
      | succ j2 =>
        simp only [List.getElem?_cons_succ] at h1 h2
        rw [ih hrest j1 j2 f1 f2 h1 h2 hi1 hi2 hn]

/-- With pairwise distinct mapped names that the map does not hold yet, the loop adds
one entry per public, non-omitted field. -/
theorem setTagMapsLoop_length (env : Env) :
    ∀ (fs : List StructField) (i : Nat) (m : GoMap), (specNames env fs).Nodup →
      (∀ k ∈ specNames env fs, m.get? k = none) →
      (setTagMapsLoop env fs i m).length = m.length + (fs.filter (specIncluded env)).length := by
  intro fs
  induction fs with
  | nil => intro i m _ _; simp [setTagMapsLoop]
  | cons f rest ih =>
    intro i m hnd hfresh
    rw [setTagMapsLoop_cons]
    by_cases hf : specIncluded env f = true
    · have hnd1 : specMappedName env f ∉ specNames env rest ∧ (specNames env rest).Nodup := by
        unfold specNames at hnd ⊢
        simpa only [List.filter_cons, hf, if_true, List.map_cons, List.nodup_cons] using hnd
      have hsub : ∀ k ∈ specNames env rest, k ∈ specNames env (f :: rest) := by
        intro k hk
        unfold specNames at hk ⊢
        simp only [List.filter_cons, hf, if_true, List.map_cons, List.mem_cons]
        exact Or.inr hk
      have hhead : m.get? (specMappedName env f) = none := by
        apply hfresh
        unfold specNames
        simp [List.filter_cons, hf]
      rw [if_pos hf, ih (i + 1) _ hnd1.2]
      · rw [GoMap.length_set, if_pos hhead]
        simp [List.filter_cons, hf]
        omega
      · intro k hk
        rw [GoMap.get?_set]
        have hne : specMappedName env f ≠ k := fun h => hnd1.1 (h ▸ hk)
        simp [hne, hfresh k (hsub k hk)]
    · have hsame : specNames env (f :: rest) = specNames env rest := by
        unfold specNames
        simp [List.filter_cons, hf]
      rw [hsame] at hnd hfresh
      rw [if_neg hf, ih (i + 1) m hnd hfresh]
      simp [List.filter_cons, hf]

/-- `getStructMapping` on a consistent cache returns what `setTagMaps` computes,
changes nothing but the cache, and leaves the cache consistent. -/
theorem getStructMapping_ok (env : Env) (t : GoType) (m : GoMap) (w : World)
    (ht : setTagMaps env t = .ok m) (hc : CacheOK env w.structMappingContainer) :
    ∃ c, getStructMapping env t w = .ret m { w with structMappingContainer := c } ∧
      CacheOK env c := by
  have hload : ∀ (c : List (GoType × GoMap)) (m1 : GoMap), CacheOK env c →
      cacheLoad c t = some m1 → m1 = m := by
    intro c
    induction c with
    | nil => intro m1 _ h; simp [cacheLoad] at h
    | cons p c ih =>
      intro m1 hok h
      obtain ⟨t1, m2⟩ := p
      by_cases h1 : t1 = t
      · subst h1
        simp only [cacheLoad, if_true, Option.some.injEq] at h
        have := hok (t1, m2) (List.mem_cons_self _ _)
        simp only [ht, Except.ok.injEq] at this
        rw [← h, this]
      · simp only [cacheLoad, h1, if_false] at h
        exact ih m1 (fun p hp => hok p (List.mem_cons_of_mem _ hp)) h
  have hstore : ∀ c : List (GoType × GoMap), CacheOK env c → CacheOK env (cacheStore c t m) := by
    intro c
    induction c with
    | nil =>
      intro _ p hp
      simp only [cacheStore, List.mem_singleton] at hp
      subst hp
      exact ht
    | cons p c ih =>
      intro hok q hq
      obtain ⟨t1, m2⟩ := p
      by_cases h1 : t1 = t
      · simp only [cacheStore, h1, if_true, List.mem_cons] at hq
        rcases hq with rfl | hq
        · exact ht
        · exact hok q (List.mem_cons_of_mem _ hq)
      · simp only [cacheStore, h1, if_false, List.mem_cons] at hq
        rcases hq with rfl | hq
        · exact hok _ (List.mem_cons_self _ _)
        · exact ih (fun p hp => hok p (List.mem_cons_of_mem _ hp)) q hq
  unfold getStructMapping
  cases hl : cacheLoad w.structMappingContainer t with
  | some m1 =>
    have := hload _ m1 hc hl
    subst this
    exact ⟨w.structMappingContainer, rfl, hc⟩
  | none =>
    simp only [ht]
    exact ⟨_, rfl, hstore _ hc⟩

/-- C3 as stated fails on a shape whose two public fields carry the same tag: both
fields are public and not omitted and both are mapped under `x`, yet the mapping has
the single entry `x ↦ 1`, so the field at position 0 has no entry. -/
theorem setTagMaps_shared_name_counterexample :
    setTagMaps demoEnv (.struct twinShape) = .ok [("x", 1)] ∧
    twinShape.fields.map (specIncluded demoEnv) = [true, true] ∧
    twinShape.fields.map (specMappedName demoEnv) = ["x", "x"] :=
  ⟨by rfl, by decide, by decide⟩

/-- C3, amended: for every record shape, `setTagMaps` returns a mapping, which
`getStructMapping` hands out unchanged on a consistent cache, and in which a name is
bound to position `i` exactly when field `i` is the last public, non-omitted field
mapped under that name (its tag if it has one, else its lower-camel-cased name).
When the mapped names of the public, non-omitted fields are pairwise distinct, the
mapping contains exactly these fields: the entries are the pairs of a field's mapped
name and its declaration position, one entry per field and no other. -/
theorem setTagMaps_mapping (env : Env) (s : Shape) :
    ∃ m : GoMap, setTagMaps env (.struct s) = .ok m ∧
      (∀ w : World, CacheOK env w.structMappingContainer →
        ∃ c, getStructMapping env (.struct s) w = .ret m { w with structMappingContainer := c } ∧
          CacheOK env c) ∧
      (∀ (k : String) (i : Nat), m.get? k = some i ↔
        ∃ f, s.fields[i]? = some f ∧ specIncluded env f = true ∧ specMappedName env f = k ∧
          ∀ (j : Nat) (g : StructField), i < j → s.fields[j]? = some g →
            specIncluded env g = true → specMappedName env g ≠ k) ∧
      ((specNames env s.fields).Nodup →
        (∀ (k : String) (i : Nat), m.get? k = some i ↔
          ∃ f, s.fields[i]? = some f ∧ specIncluded env f = true ∧ specMappedName env f = k) ∧
        m.length = (s.fields.filter (specIncluded env)).length) := by
  have hgen : ∀ (k : String) (i : Nat), (setTagMapsLoop env s.fields 0 []).get? k = some i ↔
      ∃ f, s.fields[i]? = some f ∧ specIncluded env f = true ∧ specMappedName env f = k ∧
        ∀ (j : Nat) (g : StructField), i < j → s.fields[j]? = some g →
          specIncluded env g = true → specMappedName env g ≠ k := by
    intro k i
    rw [setTagMapsLoop_get?]
    have hsome := specLastPos_eq_some env k s.fields 0 i
    constructor
    · intro h
      have h1 : specLastPos env s.fields 0 k = some i := by
        cases hl : specLastPos env s.fields 0 k with
        | some v => rw [hl] at h; simpa using h
        | none => rw [hl] at h; simp [GoMap.get?] at h
      obtain ⟨j, f, hv, hf, hi, hn, hlast⟩ := hsome.mp h1
      have : i = j := by omega
      subst this
      exact ⟨f, hf, hi, hn, hlast⟩
    · rintro ⟨f, hf, hi, hn, hlast⟩
      rw [hsome.mpr ⟨i, f, by omega, hf, hi, hn, hlast⟩]
  refine ⟨setTagMapsLoop env s.fields 0 [], rfl, ?_, hgen, ?_⟩
  · intro w hc
    exact getStructMapping_ok env (.struct s) _ w rfl hc
  · intro hnd
    refine ⟨?_, ?_⟩
    · intro k i
      rw [hgen]
      constructor
      · rintro ⟨f, hf, hi, hn, _⟩
        exact ⟨f, hf, hi, hn⟩
      · rintro ⟨f, hf, hi, hn⟩
        refine ⟨f, hf, hi, hn, ?_⟩
        intro j g hij hg hig hng
        have := specNames_nodup_index env s.fields hnd i j f g hf hg hi hig (by rw [hn, hng])
        omega
    · have := setTagMapsLoop_length env s.fields 0 [] hnd (fun k _ => rfl)
      simpa using this

/-- C3, amended, on `userShape` and the cache of a fresh process: the mapping is
served from `getStructMapping` and has exactly two entries, for `Id` and `Name`. -/
theorem setTagMaps_mapping_witness :
    ∃ m : GoMap, setTagMaps demoEnv (.struct userShape) = .ok m ∧
      (∃ c, getStructMapping demoEnv (.struct userShape) demoWorld
          = .ret m { demoWorld with structMappingContainer := c } ∧ CacheOK demoEnv c) ∧
      m.get? "id" = some 0 ∧ m.get? "name" = some 1 ∧ m.length = 2 := by
  obtain ⟨m, h1, h2, _, h4⟩ := setTagMaps_mapping demoEnv userShape
  obtain ⟨h5, h6⟩ := h4 (by decide)
  refine ⟨m, h1, h2 demoWorld (fun p hp => by simp [demoWorld] at hp), ?_, ?_, ?_⟩
  · exact (h5 "id" 0).mpr ⟨_, rfl, by decide, by decide⟩
  · exact (h5 "name" 1).mpr ⟨_, rfl, by decide, by decide⟩
  · rw [h6]; decide

/-! ## Connection manager -/

/-- What `applyDefaults` does to each field of the profile. -/
theorem applyDefaults_fields (o : Orm) :
    (applyDefaults o).Port = (if o.Port = 0 then 3301 else o.Port) ∧
    (applyDefaults o).Charset = (if o.Charset = "" then "utf8mb4" else o.Charset) ∧
    (applyDefaults o).MaxTimeout = (if o.MaxTimeout = 0 then 30 else o.MaxTimeout) ∧
    (applyDefaults o).MaxReadTimeout = (if o.MaxReadTimeout = 0 then 300 else o.MaxReadTimeout) ∧
    (applyDefaults o).Host = o.Host ∧ (applyDefaults o).User = o.User ∧
    (applyDefaults o).Pass = o.Pass ∧ (applyDefaults o).DatabaseName = o.DatabaseName ∧
    (applyDefaults o).MaxIdleConnection = o.MaxIdleConnection ∧
    (applyDefaults o).MaxOpenConnection = o.MaxOpenConnection ∧
    (applyDefaults o).locked = o.locked ∧ (applyDefaults o).Db = o.Db := by
  unfold applyDefaults
  by_cases h1 : o.MaxTimeout = 0 <;> by_cases h2 : o.MaxReadTimeout = 0 <;>
    by_cases h3 : o.Charset = "" <;> by_cases h4 : o.Port = 0 <;> simp [h1, h2, h3, h4]

/-- A profile that has its defaults is not changed by applying them again. -/
theorem applyDefaults_idem (o : Orm) : applyDefaults (applyDefaults o) = applyDefaults o := by
  have h3301 : ¬ (3301 : Int) = 0 := by decide
  have h30 : ¬ (30 : Int) = 0 := by decide
  have h300 : ¬ (300 : Int) = 0 := by decide
  have hcs : ¬ ("utf8mb4" : String) = "" := by decide
  unfold applyDefaults
  by_cases h1 : o.MaxTimeout = 0 <;> by_cases h2 : o.MaxReadTimeout = 0 <;>
    by_cases h3 : o.Charset = "" <;> by_cases h4 : o.Port = 0 <;>
    simp [h1, h2, h3, h4, h3301, h30, h300, hcs]

/-- What `connect` returns from a state with the lock free and no handle: after the
defaults, the error of `sql.Open` with a log line and the lock still held, or nil
with a fresh handle and the lock released. -/
theorem connect_unconnected (env : Env) (w : World) (hfree : w.o.locked = false)
    (hdb : w.o.Db = none) :
    Orm.connect env w =
      match env.sqlOpen w.opened (dsn (applyDefaults w.o)) with
      | some msg =>
        .ret (some (.other msg))
          { w with
            o := { applyDefaults w.o with locked := true }
            opened := w.opened + 1
            logged := w.logged ++
              ["connect " ++ (applyDefaults w.o).DatabaseName ++ " error: " ++ msg] }
      | none =>
        .ret none
          { w with
            o := { applyDefaults w.o with
                    locked := false
                    Db := some { id := w.opened
                                 maxIdleConns := (applyDefaults w.o).MaxIdleConnection
                                 maxOpenConns := (applyDefaults w.o).MaxOpenConnection
                                 closed := false } }
            opened := w.opened + 1 } := by
  obtain ⟨o, c, lg, op, q⟩ := w
  obtain ⟨Host, Port, User, Pass, Charset, DatabaseName, MaxIdle, MaxOpen, MaxTimeout,
    MaxReadTimeout, locked, Db⟩ := o
  simp only at hfree hdb
  subst hfree hdb
  have h3301 : ¬ (3301 : Int) = 0 := by decide
  have h30 : ¬ (30 : Int) = 0 := by decide
  have h300 : ¬ (300 : Int) = 0 := by decide
  have hcs : ¬ ("utf8mb4" : String) = "" := by decide
  by_cases h1 : MaxTimeout = 0 <;> by_cases h2 : MaxReadTimeout = 0 <;>
    by_cases h3 : Charset = "" <;> by_cases h4 : Port = 0 <;>
    simp only [Orm.connect, Orm.Lock, Res.bind, applyDefaults, dsn, h1, h2, h3, h4, h3301, h30,
      h300, hcs, if_true, if_false, Option.isSome_none, Bool.false_eq_true] <;>
    split <;> simp_all [Orm.Unlock, Res.bind]

/-- C9: from a state with the lock free, `connect` on a connected profile returns nil
and changes no configuration field and not the handle (the state differs only in the
lock); on an unconnected profile it returns with `Port`, `Charset`, `MaxTimeout` and
`MaxReadTimeout` at their previous value when that was set and at 3301, `utf8mb4`,
30 and 300 otherwise, with every other configuration field unchanged, and applying
the defaults to the resulting profile again changes nothing. -/
theorem connect_applies_defaults (env : Env) (w : World) (hfree : w.o.locked = false) :
    (w.o.Db.isSome = true →
      Orm.connect env w = .ret none { w with o := { w.o with locked := true } }) ∧
    (w.o.Db = none →
      ∃ r w1, Orm.connect env w = .ret r w1 ∧
        w1.o.Port = (if w.o.Port = 0 then 3301 else w.o.Port) ∧
        w1.o.Charset = (if w.o.Charset = "" then "utf8mb4" else w.o.Charset) ∧
        w1.o.MaxTimeout = (if w.o.MaxTimeout = 0 then 30 else w.o.MaxTimeout) ∧
        w1.o.MaxReadTimeout = (if w.o.MaxReadTimeout = 0 then 300 else w.o.MaxReadTimeout) ∧
        w1.o.Host = w.o.Host ∧ w1.o.User = w.o.User ∧ w1.o.Pass = w.o.Pass ∧
        w1.o.DatabaseName = w.o.DatabaseName ∧
        w1.o.MaxIdleConnection = w.o.MaxIdleConnection ∧
        w1.o.MaxOpenConnection = w.o.MaxOpenConnection ∧
        applyDefaults w1.o = w1.o) := by
  constructor
  · intro hdb
    simp [Orm.connect, Orm.Lock, hfree, Res.bind, hdb]
  · intro hdb
    obtain ⟨h1, h2, h3, h4, h5, h6, h7, h8, h9, h10, _, _⟩ := applyDefaults_fields w.o
    have hid := applyDefaults_idem w.o
    have hl : ∀ (b : Bool) (d : Option DB),
        applyDefaults { applyDefaults w.o with locked := b, Db := d }
          = { applyDefaults w.o with locked := b, Db := d } := by
      intro b d
      have key : ∀ o : Orm, applyDefaults o = o →
          applyDefaults { o with locked := b, Db := d } = { o with locked := b, Db := d } := by
        intro o ho
        unfold applyDefaults at ho ⊢
        by_cases h1 : o.MaxTimeout = 0 <;> by_cases h2 : o.MaxReadTimeout = 0 <;>
          by_cases h3 : o.Charset = "" <;> by_cases h4 : o.Port = 0 <;>
          simp [h1, h2, h3, h4] at ho ⊢ <;>
          (have hc := congrArg Orm.MaxTimeout ho
           have hc2 := congrArg Orm.MaxReadTimeout ho
           have hc3 := congrArg Orm.Charset ho
           have hc4 := congrArg Orm.Port ho
           simp_all)
      exact key _ hid
    rw [connect_unconnected env w hfree hdb]
    cases env.sqlOpen w.opened (dsn (applyDefaults w.o)) with
    | some msg =>
      refine ⟨_, _, rfl, h1, h2, h3, h4, h5, h6, h7, h8, h9, h10, ?_⟩
      have := hl true (applyDefaults w.o).Db
      simpa using this
    | none =>
      exact ⟨_, _, rfl, h1, h2, h3, h4, h5, h6, h7, h8, h9, h10, hl false _⟩

/-- C9 on a connected profile and on the unconnected `demoProfile`, whose four unset
fields receive their defaults. -/
theorem connect_applies_defaults_witness :
    Orm.connect demoEnv connectedWorld
      = .ret none { connectedWorld with o := { connectedWorld.o with locked := true } } ∧
    ∃ r w1, Orm.connect demoEnv demoWorld = .ret r w1 ∧
      w1.o.Port = 3301 ∧ w1.o.Charset = "utf8mb4" ∧ w1.o.MaxTimeout = 30 ∧
      w1.o.MaxReadTimeout = 300 ∧ w1.o.Host = "db" ∧ applyDefaults w1.o = w1.o := by
  refine ⟨(connect_applies_defaults demoEnv connectedWorld (by decide)).1 (by decide), ?_⟩
  obtain ⟨r, w1, h, h1, h2, h3, h4, h5, _, _, _, _, _, h11⟩ :=
    (connect_applies_defaults demoEnv demoWorld (by decide)).2 (by decide)
  exact ⟨r, w1, h, h1, h2, h3, h4, h5, h11⟩

/-- From a state with the lock free, `connect` leaves the lock held when the profile
is already connected and when `sql.Open` fails, and releases it when it has opened a
handle. -/
theorem connect_lock (env : Env) (w : World) (hfree : w.o.locked = false) :
    (w.o.Db.isSome = true →
      ∃ w1, Orm.connect env w = .ret none w1 ∧ w1.o.locked = true) ∧
    (∀ msg, w.o.Db = none → env.sqlOpen w.opened (dsn (applyDefaults w.o)) = some msg →
      ∃ w1, Orm.connect env w = .ret (some (.other msg)) w1 ∧ w1.o.locked = true ∧
        w1.o.Db = none) ∧
    (w.o.Db = none → env.sqlOpen w.opened (dsn (applyDefaults w.o)) = none →
      ∃ w1, Orm.connect env w = .ret none w1 ∧ w1.o.locked = false) := by
  refine ⟨?_, ?_, ?_⟩
  · intro hdb
    refine ⟨{ w with o := { w.o with locked := true } }, ?_, rfl⟩
    simp [Orm.connect, Orm.Lock, hfree, Res.bind, hdb]
  · intro msg hdb hopen
    rw [connect_unconnected env w hfree hdb, hopen]
    refine ⟨_, rfl, rfl, ?_⟩
    have := (applyDefaults_fields w.o).2.2.2.2.2.2.2.2.2.2.2
    simpa [hdb] using this
  · intro hdb hopen
    rw [connect_unconnected env w hfree hdb, hopen]
    exact ⟨_, rfl, rfl⟩

/-- C10, the code at its failing inputs: from a state with the lock free, `connect`
on a connected profile returns nil with the lock held, and `connect` with a failing
`sql.Open` returns the error with the lock held and no handle; only the success path
releases the lock. -/
theorem connect_returns_holding_lock :
    connectedWorld.o.locked = false ∧ demoWorld.o.locked = false ∧
    (∃ w1, Orm.connect demoEnv connectedWorld = .ret none w1 ∧ w1.o.locked = true) ∧
    (∃ w1, Orm.connect refusingEnv demoWorld = .ret (some (.other "invalid DSN")) w1 ∧
      w1.o.locked = true ∧ w1.o.Db = none) ∧
    (∃ w1, Orm.connect demoEnv demoWorld = .ret none w1 ∧ w1.o.locked = false) :=
  ⟨by decide, by decide,
    (connect_lock demoEnv connectedWorld (by decide)).1 (by decide),
    (connect_lock refusingEnv demoWorld (by decide)).2.1 "invalid DSN" (by decide) rfl,
    (connect_lock demoEnv demoWorld (by decide)).2.2 (by decide) rfl⟩

/-- Once `reConnect` has taken the lock, its call of `connect` waits for the same
lock: `reConnect` never returns. -/
theorem reConnect_blocks (env : Env) (w : World) : ∃ w1, Orm.reConnect env w = .blocked w1 := by
  unfold Orm.reConnect Orm.Lock
  by_cases h : w.o.locked = true
  · exact ⟨w, by simp [h, Res.bind]⟩
  · simp only [h, Res.bind]
    have hl : (closeDb { w with o := { w.o with locked := true } }).o.locked = true := by
      unfold closeDb
      cases w.o.Db <;> rfl
    refine ⟨closeDb { w with o := { w.o with locked := true } }, ?_⟩
    simp [Orm.connect, Orm.Lock, hl, Res.bind]

/-- On a connected profile with the lock free, when the driver call of the first
attempt fails with `sql: database is closed`, `query` does not return: it is blocked
in `reConnect`, holding the lock, with the handle it had, now closed, and after a
single driver call. -/
theorem query_blocks_when_closed (env : Env) (w : World) (db : DB) (query : String)
    (args : List Val) (hfree : w.o.locked = false) (hdb : w.o.Db = some db)
    (hfail : DbQuery env w db query args = .error "sql: database is closed") :
    Orm.query env w query args =
      .blocked { w with
        o := { w.o with locked := true, Db := some { db with closed := true } }
        queried := w.queried + 1 } := by
  simp [Orm.query, hdb, tryAgain, queryAttempt, hfail, Orm.reConnect, Orm.Lock, hfree, Res.bind,
    closeDb, Orm.connect]

/-- C5, the code at its failing input: on a connected profile with the lock free,
when the first driver call fails with `sql: database is closed`, `query` does not
return; it is blocked in `reConnect`, the handle is still handle 0, now closed, and
no second attempt has been made. -/
theorem query_blocks_on_closed_connection :
    Orm.query closedOnceEnv connectedWorld "SELECT id, name FROM user" [] =
      .blocked { connectedWorld with
        o := { connectedWorld.o with
                locked := true
                Db := some { id := 0, maxIdleConns := 2, maxOpenConns := 4, closed := true } }
        queried := 1 } :=
  query_blocks_when_closed closedOnceEnv connectedWorld
    { id := 0, maxIdleConns := 2, maxOpenConns := 4, closed := false }
    "SELECT id, name FROM user" [] (by decide) (by rfl) (by rfl)

/-! ## Query facade -/

/-- An invariant `P` that every returning call of `caller` preserves while
establishing `Q` holds, with `Q`, in the state `tryAgain` returns. -/
theorem tryAgain_ret_inv {σ : Type} (P Q : σ → Prop) (caller : σ → Res σ (Option GoError))
    (hstep : ∀ s r s1, P s → caller s = .ret r s1 → P s1 ∧ Q s1)
    (MaxTries : Int) (s : σ) (r : Option GoError) (s1 : σ) (hs : P s)
    (h : tryAgain MaxTries caller s = .ret r s1) : P s1 ∧ Q s1 := by
  have hloop : ∀ (n : Nat) (e : Option GoError) (s0 : σ), P s0 ∧ Q s0 →
      tryAgainLoop caller n e s0 = .ret r s1 → P s1 ∧ Q s1 := by
    intro n
    induction n with
    | zero =>
      intro e s0 h0 hl
      simp only [tryAgainLoop, Res.ret.injEq] at hl
      rw [← hl.2]; exact h0
    | succ n ih =>
      intro e s0 h0 hl
      rw [tryAgainLoop] at hl
      cases hc : caller s0 with
      | ret a s2 =>
        rw [hc] at hl
        cases a with
        | none =>
          simp only [Res.ret.injEq] at hl
          rw [← hl.2]; exact hstep s0 none s2 h0.1 hc
        | some e1 => exact ih (some e1) s2 (hstep s0 (some e1) s2 h0.1 hc) hl
      | panicked m s2 => rw [hc] at hl; cases hl
      | blocked s2 => rw [hc] at hl; cases hl
  unfold tryAgain at h
  cases hc : caller s with
  | ret a s2 =>
    rw [hc] at h
    cases a with
    | none =>
      simp only [Res.ret.injEq] at h
      rw [← h.2]; exact hstep s none s2 hs hc
    | some e1 => exact hloop _ (some e1) s2 (hstep s (some e1) s2 hs hc) h
  | panicked m s2 => rw [hc] at h; cases h
  | blocked s2 => rw [hc] at h; cases h

/-- A returning `Unlock` leaves the mapping cache alone. -/
theorem Unlock_cache (w : World) (u : Unit) (w1 : World) (h : Orm.Unlock w = .ret u w1) :
    w1.structMappingContainer = w.structMappingContainer := by
  unfold Orm.Unlock at h
  split at h
  · simp only [Res.ret.injEq] at h
    rw [← h.2]
  · cases h

/-- A returning `connect` leaves the mapping cache alone. -/
theorem connect_cache (env : Env) (w : World) (r : Option GoError) (w1 : World)
    (h : Orm.connect env w = .ret r w1) :
    w1.structMappingContainer = w.structMappingContainer := by
  unfold Orm.connect Orm.Lock at h
  by_cases hl : w.o.locked = true
  · simp [hl, Res.bind] at h
  · simp only [hl, Res.bind, Bool.false_eq_true, if_false] at h
    split at h
    · simp only [Res.ret.injEq] at h
      rw [← h.2]
    · split at h
      · simp only [Res.ret.injEq] at h
        rw [← h.2]
      · split at h
        · rename_i u w3 hu
          simp only [Res.ret.injEq] at h
          rw [← h.2, Unlock_cache _ u w3 hu]
        · cases h
        · cases h

/-- A returning attempt of the query closure leaves the mapping cache alone, and the
cursor it stores, if any, is fresh. -/
theorem queryAttempt_ret (env : Env) (query : String) (args : List Val)
    (c : List (GoType × GoMap)) (s : World × Option Rows) (r : Option GoError)
    (s1 : World × Option Rows) (hs : s.1.structMappingContainer = c)
    (h : queryAttempt env query args s = .ret r s1) :
    s1.1.structMappingContainer = c ∧ ∀ rows, s1.2 = some rows → rows.fresh := by
  obtain ⟨w, x⟩ := s
  simp only at hs
  unfold queryAttempt at h
  simp only at h
  cases hdb : w.o.Db with
  | none => rw [hdb] at h; cases h
  | some db =>
    rw [hdb] at h
    simp only at h
    cases hq : DbQuery env w db query args with
    | ok rows =>
      rw [hq] at h
      simp only [Res.ret.injEq] at h
      rw [← h.2]
      refine ⟨hs, ?_⟩
      intro rows1 hr
      simp only [Option.some.injEq] at hr
      subst hr
      unfold DbQuery at hq
      split at hq
      · cases hq
      · split at hq
        · cases hq
        · simp only [Except.ok.injEq] at hq
          rw [← hq]
          exact ⟨rfl, rfl, rfl⟩
    | error msg =>
      rw [hq] at h
      simp only at h
      split at h
      · obtain ⟨w2, hb⟩ := reConnect_blocks env { w with queried := w.queried + 1 }
        rw [hb] at h
        cases h
      · simp only [Res.ret.injEq] at h
        rw [← h.2]
        exact ⟨hs, fun rows hr => by cases hr⟩

/-- When `query` returns, the mapping cache is what it was and the cursor returned,
if any, is fresh. -/
theorem query_ret (env : Env) (w : World) (query : String) (args : List Val)
    (rows : Option Rows) (err : Option GoError) (w1 : World)
    (h : Orm.query env w query args = .ret (rows, err) w1) :
    w1.structMappingContainer = w.structMappingContainer ∧
      ∀ rs, rows = some rs → rs.fresh := by
  unfold Orm.query at h
  simp only at h
  have hconn : ∀ (r : Option GoError) (w2 : World),
      (if w.o.Db.isNone = true then tryAgain env.MaxTries (Orm.connect env) w else .ret none w)
        = .ret r w2 → w2.structMappingContainer = w.structMappingContainer := by
    intro r w2 hc
    split at hc
    · exact (tryAgain_ret_inv
        (fun s => s.structMappingContainer = w.structMappingContainer) (fun _ => True)
        (Orm.connect env)
        (fun s r1 s1 hP hcall => ⟨(connect_cache env s r1 s1 hcall).trans hP, trivial⟩)
        env.MaxTries w r w2 rfl hc).1
    · simp only [Res.ret.injEq] at hc
      rw [← hc.2]
  split at h
  · rename_i e w2 hc
    simp only [Res.ret.injEq, Prod.mk.injEq] at h
    obtain ⟨⟨h1, _⟩, h3⟩ := h
    rw [← h3]
    exact ⟨hconn _ _ hc, fun rs hr => by rw [← h1] at hr; cases hr⟩
  · cases h
  · cases h
  · rename_i w2 hc
    have hcache := hconn _ _ hc
    split at h
    · rename_i e w3 rows3 ht
      simp only [Res.ret.injEq, Prod.mk.injEq] at h
      obtain ⟨⟨h1, _⟩, h3⟩ := h
      have := tryAgain_ret_inv
        (fun s : World × Option Rows => s.1.structMappingContainer = w.structMappingContainer)
        (fun s => ∀ rs, s.2 = some rs → rs.fresh)
        (queryAttempt env query args)
        (fun s r1 s1 hP hcall => queryAttempt_ret env query args _ s r1 s1 hP hcall)
        env.MaxTries (w2, none) e (w3, rows3) hcache ht
      rw [← h3, ← h1]
      exact this
    · cases h
    · cases h

/-! ## Row scanner -/

/-- A name the computed mapping holds is bound to the position of a public,
non-omitted field mapped under that name. -/
theorem setTagMapsLoop_get?_some (env : Env) (fs : List StructField) (k : String) (i : Nat)
    (h : (setTagMapsLoop env fs 0 []).get? k = some i) :
    ∃ f, fs[i]? = some f ∧ specIncluded env f = true ∧ specMappedName env f = k := by
  rw [setTagMapsLoop_get?] at h
  cases hl : specLastPos env fs 0 k with
  | none => rw [hl] at h; simp [GoMap.get?] at h
  | some v =>
    rw [hl] at h
    simp only [Option.some.injEq] at h
    subst h
    obtain ⟨j, f, hv, hf, hi, hn, _⟩ := (specLastPos_eq_some env k fs 0 v).mp hl
    have : v = j := by omega
    subst this
    exact ⟨f, hf, hi, hn⟩

/-- With a mapping whose positions are exported fields of the record, the column
loop does not panic and binds `specTarget` for each column. -/
theorem bindScanArgs_ok (env : Env) (m : GoMap) (fs : List StructField)
    (hm : ∀ c idx, m.get? c = some idx → ∃ f, fs[idx]? = some f ∧ IsExported env f.Name = true) :
    ∀ columns : List String,
      bindScanArgs env m (some fs) columns = .ok (columns.map (specTarget m fs)) := by
  intro columns
  induction columns with
  | nil => rfl
  | cons c rest ih =>
    rw [bindScanArgs]
    cases hg : m.get? c with
    | none => simp [ih, specTarget, hg]
    | some idx =>
      obtain ⟨f, hf, hex⟩ := hm c idx hg
      simp [ih, specTarget, hg, hf, hex]

/-- A scan changes no length. -/
theorem scanAssign_length (env : Env) (columns : List String) :
    ∀ (dest : List Target) (lastcols : List Val) (i : Nat) (record : List Val),
      (scanAssign env columns dest lastcols i record).2.length = record.length := by
  intro dest
  induction dest with
  | nil => intro lastcols i record; simp [scanAssign]
  | cons t dest ih =>
    intro lastcols i record
    cases lastcols with
    | nil => simp [scanAssign]
    | cons sv lastcols =>
      cases t with
      | ignored => simpa [scanAssign] using ih lastcols (i + 1) record
      | field idx ty =>
        simp only [scanAssign]
        cases env.convertAssign ty sv with
        | error msg => rfl
        | ok v => simpa using ih lastcols (i + 1) (record.set idx v)

/-- A field no destination points to keeps its value. -/
theorem scanAssign_frame (env : Env) (columns : List String) (idx : Nat) :
    ∀ (dest : List Target) (lastcols : List Val) (i : Nat) (record : List Val),
      (∀ (j : Nat) (ty : FieldType), dest[j]? ≠ some (.field idx ty)) →
      (scanAssign env columns dest lastcols i record).2[idx]? = record[idx]? := by
  intro dest
  induction dest with
  | nil => intro lastcols i record _; simp [scanAssign]
  | cons t dest ih =>
    intro lastcols i record h
    have hrest : ∀ (j : Nat) (ty : FieldType), dest[j]? ≠ some (.field idx ty) :=
      fun j ty => by simpa using h (j + 1) ty
    cases lastcols with
    | nil => simp [scanAssign]
    | cons sv lastcols =>
      cases t with
      | ignored => simpa [scanAssign] using ih lastcols (i + 1) record hrest
      | field idx1 ty =>
        have hne : idx1 ≠ idx := by
          intro he
          exact h 0 ty (by simp [he])
        simp only [scanAssign]
        cases env.convertAssign ty sv with
        | error msg => rfl
        | ok v =>
          simp only
          rw [ih lastcols (i + 1) (record.set idx1 v) hrest]
          exact List.getElem?_set_ne hne

/-- A scan in which every conversion succeeds returns no error. -/
theorem scanAssign_ok (env : Env) (columns : List String) :
    ∀ (dest : List Target) (lastcols : List Val) (i : Nat) (record : List Val),
      (∀ (j idx : Nat) (ty : FieldType) (sv : Val), dest[j]? = some (.field idx ty) →
        lastcols[j]? = some sv → ∃ v, env.convertAssign ty sv = .ok v) →
      (scanAssign env columns dest lastcols i record).1 = none := by
  intro dest
  induction dest with
  | nil => intro lastcols i record _; simp [scanAssign]
  | cons t dest ih =>
    intro lastcols i record h
    cases lastcols with
    | nil => simp [scanAssign]
    | cons sv lastcols =>
      have hrest : ∀ (j idx : Nat) (ty : FieldType) (sv1 : Val),
          dest[j]? = some (.field idx ty) → lastcols[j]? = some sv1 →
          ∃ v, env.convertAssign ty sv1 = .ok v :=
        fun j idx ty sv1 h1 h2 => h (j + 1) idx ty sv1 (by simpa using h1) (by simpa using h2)
      cases t with
      | ignored => simpa [scanAssign] using ih lastcols (i + 1) record hrest
      | field idx ty =>
        obtain ⟨v, hv⟩ := h 0 idx ty sv (by simp) (by simp)
        simp only [scanAssign, hv]
        exact ih lastcols (i + 1) (record.set idx v) hrest

/-- After a scan without error, a field holds the converted value of the last
column whose destination it is. -/
theorem scanAssign_last (env : Env) (columns : List String) (idx : Nat) (ty : FieldType) :
    ∀ (dest : List Target) (lastcols : List Val) (i : Nat) (record : List Val) (j : Nat)
      (sv : Val),
      (scanAssign env columns dest lastcols i record).1 = none →
      dest[j]? = some (.field idx ty) → lastcols[j]? = some sv →
      (∀ (j2 : Nat) (ty2 : FieldType), j < j2 → dest[j2]? ≠ some (.field idx ty2)) →
      idx < record.length →
      ∃ v, env.convertAssign ty sv = .ok v ∧
        (scanAssign env columns dest lastcols i record).2[idx]? = some v := by
  intro dest
  induction dest with
  | nil => intro lastcols i record j sv _ hd; simp at hd
  | cons t dest ih =>
    intro lastcols i record j sv hok hd hs hlast hidx
    cases lastcols with
    | nil => simp at hs
    | cons sv0 lastcols =>
      cases j with
      | zero =>
        simp only [List.getElem?_cons_zero, Option.some.injEq] at hd hs
        subst hd hs
        have hrest : ∀ (j : Nat) (ty2 : FieldType), dest[j]? ≠ some (.field idx ty2) :=
          fun j ty2 => by simpa using hlast (j + 1) ty2 (by omega)
        simp only [scanAssign] at hok ⊢
        cases hc : env.convertAssign ty sv0 with
        | error msg => rw [hc] at hok; simp at hok
        | ok v =>
          refine ⟨v, rfl, ?_⟩
          simp only
          rw [scanAssign_frame env columns idx dest lastcols (i + 1) _ hrest]
          simp [hidx]
      | succ j1 =>
        simp only [List.getElem?_cons_succ] at hd hs
        have hlast1 : ∀ (j2 : Nat) (ty2 : FieldType), j1 < j2 →
            dest[j2]? ≠ some (.field idx ty2) :=
          fun j2 ty2 hj => by simpa using hlast (j2 + 1) ty2 (by omega)
        cases t with
        | ignored =>
          simp only [scanAssign] at hok ⊢
          exact ih lastcols (i + 1) record j1 sv hok hd hs hlast1 hidx
        | field idx1 ty1 =>
          simp only [scanAssign] at hok ⊢
          cases hc : env.convertAssign ty1 sv0 with
          | error msg => rw [hc] at hok; simp at hok
          | ok v1 =>
            rw [hc] at hok
            simp only at hok ⊢
            exact ih lastcols (i + 1) (record.set idx1 v1) j1 sv hok hd hs hlast1
              (by simpa using hidx)

/-- Two records of the same length that agree on every field no destination points
to give the same error, and without error the same record: what a scan leaves
depends on the earlier content of the buffer only through the fields it does not
write. -/
theorem scanAssign_agree (env : Env) (columns : List String) :
    ∀ (dest : List Target) (lastcols : List Val) (i : Nat) (r1 r2 : List Val),
      r1.length = r2.length → dest.length ≤ lastcols.length →
      (∀ idx : Nat, (∀ (j : Nat) (ty : FieldType), dest[j]? ≠ some (.field idx ty)) →
        r1[idx]? = r2[idx]?) →
      (scanAssign env columns dest lastcols i r1).1 = (scanAssign env columns dest lastcols i r2).1 ∧
      ((scanAssign env columns dest lastcols i r1).1 = none →
        (scanAssign env columns dest lastcols i r1).2 = (scanAssign env columns dest lastcols i r2).2) := by
  intro dest
  induction dest with
  | nil =>
    intro lastcols i r1 r2 _ _ h
    simp only [scanAssign, true_and]
    intro _
    exact List.ext_getElem? (fun idx => h idx (fun j ty => by simp))
  | cons t dest ih =>
    intro lastcols i r1 r2 hlen hle h
    cases lastcols with
    | nil => simp at hle
    | cons sv lastcols =>
      have hle1 : dest.length ≤ lastcols.length := by simpa using hle
      cases t with
      | ignored =>
        simp only [scanAssign]
        apply ih lastcols (i + 1) r1 r2 hlen hle1
        intro idx hidx
        apply h idx
        intro j ty
        cases j with
        | zero => simp
        | succ j1 => simpa using hidx j1 ty
      | field idx1 ty1 =>
        simp only [scanAssign]
        cases env.convertAssign ty1 sv with
        | error msg => simp
        | ok v =>
          simp only
          apply ih lastcols (i + 1) (r1.set idx1 v) (r2.set idx1 v) (by simpa using hlen) hle1
          intro idx hidx
          by_cases he : idx1 = idx
          · subst he
            simp [List.getElem?_set, hlen]
          · rw [List.getElem?_set_ne he, List.getElem?_set_ne he]
            apply h idx
            intro j ty
            cases j with
            | zero =>
              simp only [List.getElem?_cons_zero, ne_eq, Option.some.injEq, Target.field.injEq,
                not_and]
              intro h1
              exact absurd h1 he
            | succ j1 => simpa using hidx j1 ty

/-- When the column loop binds a field, the mapping sends the column to it. -/
theorem specTarget_field (m : GoMap) (fs : List StructField) (c : String) (idx : Nat)
    (ty : FieldType) :
    specTarget m fs c = .field idx ty ↔
      m.get? c = some idx ∧ ∃ f, fs[idx]? = some f ∧ f.Typ = ty := by
  unfold specTarget
  cases hg : m.get? c with
  | none => simp
  | some idx1 =>
    cases hf : fs[idx1]? with
    | none =>
      simp only [hf, Option.some.injEq]
      constructor
      · intro h; cases h
      · rintro ⟨he, f, hf2, _⟩
        subst he
        rw [hf] at hf2
        cases hf2
    | some f =>
      simp only [hf, Target.field.injEq, Option.some.injEq]
      constructor
      · rintro ⟨h1, h2⟩
        subst h1 h2
        exact ⟨rfl, f, hf, rfl⟩
      · rintro ⟨h1, f2, hf2, h2⟩
        subst h1
        rw [hf] at hf2
        simp only [Option.some.injEq] at hf2
        subst hf2
        exact ⟨rfl, h2⟩

/-- The destinations bound for a list of columns, position by position. -/
theorem specTarget_map_getElem? (m : GoMap) (fs : List StructField) (columns : List String)
    (j idx : Nat) (ty : FieldType) :
    (columns.map (specTarget m fs))[j]? = some (.field idx ty) ↔
      ∃ c, columns[j]? = some c ∧ m.get? c = some idx ∧ ∃ f, fs[idx]? = some f ∧ f.Typ = ty := by
  rw [List.getElem?_map]
  cases hc : columns[j]? with
  | none => simp
  | some c => simp [specTarget_field]

/-- The mapping `setTagMaps` returns for a struct: it is the result of the loop, its
positions are exported fields, and a position is bound under one name only. -/
theorem setTagMaps_struct (env : Env) (s : Shape) (m : GoMap)
    (hm : setTagMaps env (.struct s) = .ok m) :
    (∀ c idx, m.get? c = some idx →
      ∃ f, s.fields[idx]? = some f ∧ IsExported env f.Name = true) ∧
    (∀ c1 c2 idx, m.get? c1 = some idx → m.get? c2 = some idx → c1 = c2) := by
  simp only [setTagMaps, Except.ok.injEq] at hm
  subst hm
  constructor
  · intro c idx h
    obtain ⟨f, hf, hi, _⟩ := setTagMapsLoop_get?_some env s.fields c idx h
    refine ⟨f, hf, ?_⟩
    simp only [specIncluded, Bool.and_eq_true] at hi
    exact hi.1
  · intro c1 c2 idx h1 h2
    obtain ⟨f1, hf1, _, hn1⟩ := setTagMapsLoop_get?_some env s.fields c1 idx h1
    obtain ⟨f2, hf2, _, hn2⟩ := setTagMapsLoop_get?_some env s.fields c2 idx h2
    rw [hf1] at hf2
    simp only [Option.some.injEq] at hf2
    subst hf2
    rw [← hn1, ← hn2]

/-- The body of `QueryRow` on a pointer to a record and an open cursor with a row
left: it advances to that row, reads the columns, binds one destination per column
and scans the row into the record. -/
theorem scanOne_struct (env : Env) (w : World) (s : Shape) (fields : List Val) (rows : Rows)
    (m : GoMap) (row : List Val) (rest : List (List Val))
    (hc : CacheOK env w.structMappingContainer) (hm : setTagMaps env (.struct s) = .ok m)
    (hopen : rows.closed = false) (hrows : rows.pending = row :: rest)
    (hlen : row.length = rows.columns.length) :
    ∃ c, CacheOK env c ∧
      scanOne env w (.ptr (.struct s fields)) rows =
        .ret
          { err := (scanAssign env rows.columns (rows.columns.map (specTarget m s.fields))
              row 0 fields).1
            result := .ptr (.struct s
              (scanAssign env rows.columns (rows.columns.map (specTarget m s.fields))
                row 0 fields).2)
            rows := { rows with
              calls := rows.calls ++ [.Next, .Columns, .Scan]
              current := some row
              pending := rest } }
          { w with structMappingContainer := c } := by
  obtain ⟨c, hget, hc1⟩ := getStructMapping_ok env (.struct s) m w hm hc
  refine ⟨c, hc1, ?_⟩
  have hbind := bindScanArgs_ok env m s.fields (setTagMaps_struct env s m hm).1 rows.columns
  obtain ⟨columns, pending, current, closed, calls⟩ := rows
  simp only at hopen hrows hlen hbind
  subst hopen hrows
  simp [scanOne, Rows.Next, Rows.Columns, Stored.TypeOf, hget, Res.bind, Stored.structFields,
    hbind, Rows.Scan, Stored.record, Stored.withRecord, hlen]

/-- The loop of `QueryRows` on an open cursor whose remaining rows all scan: it runs
to the end of the cursor, returns no error, and appends for each row, in order, the
record a scan of that row into the zero record `zero` leaves.  The buffer `element`
may hold an earlier row: it has the length of `zero` and agrees with it on the
fields no destination points to. -/
theorem appendLoop_all (env : Env) (scanArgs : List Target) (zero : List Val) :
    ∀ (pending : List (List Val)) (rows : Rows) (element : List Val)
      (items : Option (List (List Val))),
      rows.pending = pending → rows.closed = false →
      element.length = zero.length →
      (∀ idx : Nat, (∀ (j : Nat) (ty : FieldType), scanArgs[j]? ≠ some (.field idx ty)) →
        element[idx]? = zero[idx]?) →
      (∀ row ∈ pending, scanArgs.length = row.length ∧
        (scanAssign env rows.columns scanArgs row 0 zero).1 = none) →
      ∃ rows1, rows1.columns = rows.columns ∧ rows1.closed = true ∧
        appendLoop env scanArgs rows element items =
          (none, rows1,
            if pending = [] then items
            else some (items.getD [] ++
              pending.map fun row => (scanAssign env rows.columns scanArgs row 0 zero).2)) := by
  intro pending
  induction pending with
  | nil =>
    intro rows element items hp hopen _ _ _
    obtain ⟨columns, pending, current, closed, calls⟩ := rows
    simp only at hp hopen
    subst hp hopen
    rw [appendLoop]
    simp [Rows.Next]
  | cons row rest ih =>
    intro rows element items hp hopen hlen hagree hall
    obtain ⟨columns, pending, current, closed, calls⟩ := rows
    simp only at hp hopen hall
    subst hp hopen
    obtain ⟨hrowlen, hrowok⟩ := hall row (List.mem_cons_self _ _)
    obtain ⟨herr, hrec⟩ := scanAssign_agree env columns scanArgs row 0 element zero hlen
      (le_of_eq hrowlen) hagree
    rw [hrowok] at herr
    have hrec1 := hrec herr
    have hlen1 : (scanAssign env columns scanArgs row 0 zero).2.length = zero.length :=
      scanAssign_length env columns scanArgs row 0 zero
    have hagree1 : ∀ idx : Nat,
        (∀ (j : Nat) (ty : FieldType), scanArgs[j]? ≠ some (.field idx ty)) →
        (scanAssign env columns scanArgs row 0 zero).2[idx]? = zero[idx]? :=
      fun idx h => scanAssign_frame env columns idx scanArgs row 0 zero h
    obtain ⟨rows1, hcols1, hclosed1, hloop⟩ :=
      ih { columns := columns, pending := rest, current := some row, closed := false,
           calls := calls ++ [RowsCall.Next] ++ [RowsCall.Scan] }
        (scanAssign env columns scanArgs row 0 zero).2
        (some (items.getD [] ++ [(scanAssign env columns scanArgs row 0 zero).2]))
        rfl rfl hlen1 hagree1
        (fun r hr => hall r (List.mem_cons_of_mem _ hr))
    refine ⟨rows1, hcols1, hclosed1, ?_⟩
    rw [appendLoop]
    simp only [Rows.Next, Rows.Scan, Bool.false_eq_true, if_false, dite_true, hrowlen,
      ne_eq, not_true_eq_false, herr, hrec1]
    rw [hloop]
    by_cases hrest : rest = []
    · subst hrest
      simp
    · simp [hrest]

/-- What `QueryRows` does on a pointer to a slice of records when `query` has
returned a cursor and no error and every row of the cursor scans: it returns nil,
the slice is left alone when there is no row and otherwise is the old content
followed by one record per row, in cursor order, each the result of scanning that
row into a zero record; the cursor ends closed. -/
theorem QueryRows_ret (env : Env) (w w1 : World) (s : Shape)
    (items : Option (List (List Val))) (m : GoMap) (query : String) (args : List Val)
    (rows : Rows)
    (hc : CacheOK env w.structMappingContainer)
    (hm : setTagMaps env (.struct s) = .ok m)
    (hq : Orm.query env w query args = .ret (some rows, none) w1)
    (hscan : ∀ row ∈ rows.pending, row.length = rows.columns.length ∧
      ∀ (j : Nat) (c : String) (idx : Nat) (f : StructField) (sv : Val),
        rows.columns[j]? = some c → m.get? c = some idx → s.fields[idx]? = some f →
        row[j]? = some sv → ∃ v, env.convertAssign f.Typ sv = .ok v) :
    ∃ c rows1, CacheOK env c ∧ rows1.closed = true ∧
      Orm.QueryRows env w (.ptr (.slice (.struct s) items)) query args =
        .ret
          { err := none
            result := .ptr (.slice (.struct s)
              (if rows.pending = [] then items
               else some (items.getD [] ++ rows.pending.map fun row =>
                 (scanAssign env rows.columns (rows.columns.map (specTarget m s.fields)) row 0
                   (s.fields.map fun f => f.Typ.zero)).2)))
            rows := rows1 }
          { w1 with structMappingContainer := c } := by
  obtain ⟨hcache, hfresh⟩ := query_ret env w query args (some rows) none w1 hq
  obtain ⟨hopen, _, _⟩ := hfresh rows rfl
  rw [← hcache] at hc
  obtain ⟨c, hget, hc1⟩ := getStructMapping_ok env (.struct s) m w1 hm hc
  have hbind := bindScanArgs_ok env m s.fields (setTagMaps_struct env s m hm).1 rows.columns
  have hall : ∀ row ∈ rows.pending,
      (rows.columns.map (specTarget m s.fields)).length = row.length ∧
      (scanAssign env rows.columns (rows.columns.map (specTarget m s.fields)) row 0
        (s.fields.map fun f => f.Typ.zero)).1 = none := by
    intro row hrow
    obtain ⟨hlen, hconv⟩ := hscan row hrow
    refine ⟨by simp [hlen], ?_⟩
    apply scanAssign_ok
    intro j idx ty sv hd hs
    obtain ⟨c1, hc1, hg, f, hf, hty⟩ :=
      (specTarget_map_getElem? m s.fields rows.columns j idx ty).mp hd
    rw [← hty]
    exact hconv j c1 idx f sv hc1 hg hf hs
  obtain ⟨columns, pending, current, closed, calls⟩ := rows
  simp only at hopen hbind hall
  subst hopen
  obtain ⟨rows1, _, hclosed1, hloop⟩ :=
    appendLoop_all env (columns.map (specTarget m s.fields)) (s.fields.map fun f => f.Typ.zero)
      pending
      { columns := columns, pending := pending, current := current, closed := false,
        calls := calls ++ [RowsCall.Columns] }
      (s.fields.map fun f => f.Typ.zero) items rfl rfl rfl (fun _ _ => rfl) hall
  refine ⟨c, rows1.Close, hc1, rfl, ?_⟩
  simp only at hloop
  simp only [Orm.QueryRows, hq, scanAll, Rows.Columns, Bool.false_eq_true, if_false, hget,
    Res.bind, hbind, hloop, closeRows]

/-- Under `demoEnv` a row of an integer and a string scans into a `User` record:
the value of column `id` converts to the type of `Id`, that of `name` to the type of
`Name`. -/
theorem demo_row_converts (a : Int) (b : String) (j : Nat) (c : String) (idx : Nat)
    (f : StructField) (sv : Val)
    (hc : (["id", "name"] : List String)[j]? = some c)
    (hg : GoMap.get? [("id", 0), ("name", 1)] c = some idx)
    (hf : userShape.fields[idx]? = some f)
    (hs : ([.int a, .str b] : List Val)[j]? = some sv) :
    ∃ v, demoEnv.convertAssign f.Typ sv = .ok v := by
  match j, hc, hs with
  | 0, hc, hs =>
    simp only [List.getElem?_cons_zero, Option.some.injEq] at hc hs
    subst hc hs
    simp only [GoMap.get?, if_true, Option.some.injEq] at hg
    subst hg
    simp only [userShape, List.getElem?_cons_zero, Option.some.injEq] at hf
    subst hf
    exact ⟨_, rfl⟩
  | 1, hc, hs =>
    simp only [List.getElem?_cons_succ, List.getElem?_cons_zero, Option.some.injEq] at hc hs
    subst hc hs
    have hg1 : idx = 1 := by
      have : GoMap.get? [("id", 0), ("name", 1)] "name" = some 1 := by decide
      rw [this] at hg
      exact (Option.some.inj hg).symm
    subst hg1
    simp only [userShape, List.getElem?_cons_succ, List.getElem?_cons_zero,
      Option.some.injEq] at hf
    subst hf
    exact ⟨_, rfl⟩
  | j + 2, hc, _ => simp at hc

/-- No column after the first is named `id`, and none after the second `name`. -/
theorem demo_columns_last :
    (∀ j2 : Nat, 0 < j2 → (["id", "name"] : List String)[j2]? ≠ some "id") ∧
    (∀ j2 : Nat, 1 < j2 → (["id", "name"] : List String)[j2]? ≠ some "name") := by
  constructor
  · intro j2 hj2
    match j2, hj2 with
    | 1, _ => decide
    | j + 2, _ => simp
  · intro j2 hj2
    match j2, hj2 with
    | j + 2, _ => simp

/-- C1 as stated fails on two inputs.  With the two result columns both named `id`
and the row `(1, 2)`, field `Id` ends with 2, not with the value 1 of the first
column of its name.  With the shape whose fields `A` and `B` are both tagged `x`,
the column `x` and the row `(7)`, field `A`, whose mapped name is a result column,
keeps its value 0; only `B` receives 7. -/
theorem QueryRow_shared_name_counterexample :
    (∃ out w1, Orm.QueryRow joinEnv connectedWorld (.ptr (.struct userShape demoUser))
        "SELECT a.id, b.id FROM a JOIN b" [] = .ret out w1 ∧ out.err = none ∧
      out.result = .ptr (.struct userShape [.int 2, .str "old", .str "s", .str "k"])) ∧
    (∃ out w1, Orm.QueryRow twinEnv connectedWorld (.ptr (.struct twinShape [.int 0, .int 0]))
        "SELECT x FROM t" [] = .ret out w1 ∧ out.err = none ∧
      out.result = .ptr (.struct twinShape [.int 0, .int 7]) ∧
      twinShape.fields.map (specMappedName twinEnv) = ["x", "x"]) :=
  ⟨⟨_, _, by rfl, by decide, by decide⟩, ⟨_, _, by rfl, by decide, by decide, by decide⟩⟩

/-- C1, amended: for a pointer to a record and a cursor with at least one row whose
scan succeeds (the row has one value per column and every value bound to a field
converts to that field's type), `QueryRow` returns nil and afterwards each field to
which the mapping sends a result column's name holds the converted value the first
row has in the last column of that name, while every field to which the mapping
sends no result column keeps the value it had; the other columns leave no trace in
the record. -/
theorem QueryRow_fills_bound_fields (env : Env) (w w1 : World) (s : Shape)
    (fields : List Val) (m : GoMap) (query : String) (args : List Val) (rows : Rows)
    (row : List Val) (rest : List (List Val))
    (hc : CacheOK env w.structMappingContainer)
    (hwf : fields.length = s.fields.length)
    (hm : setTagMaps env (.struct s) = .ok m)
    (hq : Orm.query env w query args = .ret (some rows, none) w1)
    (hrows : rows.pending = row :: rest)
    (hlen : row.length = rows.columns.length)
    (hconv : ∀ (j : Nat) (c : String) (idx : Nat) (f : StructField) (sv : Val),
      rows.columns[j]? = some c → m.get? c = some idx → s.fields[idx]? = some f →
      row[j]? = some sv → ∃ v, env.convertAssign f.Typ sv = .ok v) :
    ∃ out w2, Orm.QueryRow env w (.ptr (.struct s fields)) query args = .ret out w2 ∧
      out.err = none ∧
      ∃ fields1, out.result = .ptr (.struct s fields1) ∧ fields1.length = fields.length ∧
        (∀ (j : Nat) (c : String) (idx : Nat) (f : StructField) (sv : Val),
          rows.columns[j]? = some c → m.get? c = some idx → s.fields[idx]? = some f →
          row[j]? = some sv → (∀ j2 : Nat, j < j2 → rows.columns[j2]? ≠ some c) →
          ∃ v, env.convertAssign f.Typ sv = .ok v ∧ fields1[idx]? = some v) ∧
        (∀ idx : Nat, (∀ c ∈ rows.columns, m.get? c ≠ some idx) →
          fields1[idx]? = fields[idx]?) := by
  obtain ⟨hcache, hfresh⟩ := query_ret env w query args (some rows) none w1 hq
  obtain ⟨hopen, _, _⟩ := hfresh rows rfl
  rw [← hcache] at hc
  obtain ⟨c, _, hscan⟩ := scanOne_struct env w1 s fields rows m row rest hc hm hopen hrows hlen
  have hinj := (setTagMaps_struct env s m hm).2
  have hok : (scanAssign env rows.columns (rows.columns.map (specTarget m s.fields))
      row 0 fields).1 = none := by
    apply scanAssign_ok
    intro j idx ty sv hd hs
    obtain ⟨c1, hc1, hg, f, hf, hty⟩ :=
      (specTarget_map_getElem? m s.fields rows.columns j idx ty).mp hd
    rw [← hty]
    exact hconv j c1 idx f sv hc1 hg hf hs
  have hQ : Orm.QueryRow env w (.ptr (.struct s fields)) query args =
      .ret
        { err := (scanAssign env rows.columns (rows.columns.map (specTarget m s.fields))
            row 0 fields).1
          result := .ptr (.struct s
            (scanAssign env rows.columns (rows.columns.map (specTarget m s.fields))
              row 0 fields).2)
          rows := Rows.Close { rows with
            calls := rows.calls ++ [.Next, .Columns, .Scan]
            current := some row
            pending := rest } }
        { w1 with structMappingContainer := c } := by
    simp only [Orm.QueryRow, hq, hscan, closeRows]
  refine ⟨_, _, hQ, hok, _, rfl, scanAssign_length _ _ _ _ _ _, ?_, ?_⟩
  · intro j c1 idx f sv hc1 hg hf hs hlast
    have hidx : idx < fields.length := by
      rw [hwf]
      exact (List.getElem?_eq_some_iff.mp hf).1
    apply scanAssign_last env rows.columns idx f.Typ _ row 0 fields j sv hok
      ((specTarget_map_getElem? m s.fields rows.columns j idx f.Typ).mpr
        ⟨c1, hc1, hg, f, hf, rfl⟩) hs _ hidx
    intro j2 ty2 hj2 hd2
    obtain ⟨c2, hc2, hg2, _⟩ :=
      (specTarget_map_getElem? m s.fields rows.columns j2 idx ty2).mp hd2
    have : c2 = c1 := hinj c2 c1 idx hg2 hg
    subst this
    exact hlast j2 hj2 hc2
  · intro idx hno
    apply scanAssign_frame
    intro j ty hd
    obtain ⟨c1, hc1, hg, _⟩ := (specTarget_map_getElem? m s.fields rows.columns j idx ty).mp hd
    exact hno c1 (List.getElem?_mem hc1) hg

/-- C1, amended, on a `User` record and the two-row answer of `demoEnv`: `Id` and
`Name` receive the first row, the unexported and the omitted field keep their
values. -/
theorem QueryRow_fills_bound_fields_witness :
    ∃ out w2, Orm.QueryRow demoEnv connectedWorld (.ptr (.struct userShape demoUser))
        "SELECT id, name FROM user" [] = .ret out w2 ∧ out.err = none ∧
      ∃ fields1, out.result = .ptr (.struct userShape fields1) ∧
        fields1[0]? = some (.int 1) ∧ fields1[1]? = some (.str "a") ∧
        fields1[2]? = some (.str "s") ∧ fields1[3]? = some (.str "k") := by
  obtain ⟨out, w2, h, herr, fields1, hres, _, hbound, hframe⟩ :=
    QueryRow_fills_bound_fields demoEnv connectedWorld
      { connectedWorld with queried := 1 } userShape demoUser [("id", 0), ("name", 1)]
      "SELECT id, name FROM user" []
      { columns := ["id", "name"], pending := [[.int 1, .str "a"], [.int 2, .str "b"]],
        current := none, closed := false, calls := [] }
      [.int 1, .str "a"] [[.int 2, .str "b"]]
      (fun p hp => by simp [connectedWorld] at hp) (by decide) (by rfl) (by rfl) rfl (by decide)
      (demo_row_converts 1 "a")
  refine ⟨out, w2, h, herr, fields1, hres, ?_, ?_, ?_, ?_⟩
  · obtain ⟨v, hv, hf⟩ := hbound 0 "id" 0 _ (.int 1) rfl (by decide) rfl rfl
      demo_columns_last.1
    have hv1 : Except.ok (Val.int 1) = Except.ok v := hv
    rw [hf, ← Except.ok.inj hv1]
  · obtain ⟨v, hv, hf⟩ := hbound 1 "name" 1 _ (.str "a") rfl (by decide) rfl rfl
      demo_columns_last.2
    have hv1 : Except.ok (Val.str "a") = Except.ok v := hv
    rw [hf, ← Except.ok.inj hv1]
  · rw [hframe 2 (by decide)]; rfl
  · rw [hframe 3 (by decide)]; rfl

/-- C8: when `query` has returned a cursor and no error and the cursor has no row,
`QueryRow` returns `ErrNoData` and the destination, whatever it is, is as it was;
the only calls the cursor has received are `Next` and the deferred `Close`. -/
theorem QueryRow_no_rows (env : Env) (w w1 : World) (result : GoValue) (query : String)
    (args : List Val) (rows : Rows)
    (hq : Orm.query env w query args = .ret (some rows, none) w1)
    (hempty : rows.pending = []) :
    Orm.QueryRow env w result query args =
      .ret
        { err := some .ErrNoData
          result := result
          rows := { rows with calls := [.Next, .Close], current := none, closed := true } }
        w1 := by
  obtain ⟨_, hfresh⟩ := query_ret env w query args (some rows) none w1 hq
  obtain ⟨hopen, _, hcalls⟩ := hfresh rows rfl
  obtain ⟨columns, pending, current, closed, calls⟩ := rows
  simp only at hempty hopen hcalls
  subst hempty hopen hcalls
  simp [Orm.QueryRow, hq, scanOne, Rows.Next, closeRows, Rows.Close]

/-- C8 on a pointer to a `User` record and a driver that answers with no row. -/
theorem QueryRow_no_rows_witness :
    Orm.QueryRow emptyEnv connectedWorld (.ptr (.struct userShape demoUser))
        "SELECT id, name FROM user" [] =
      .ret
        { err := some .ErrNoData
          result := .ptr (.struct userShape demoUser)
          rows := { columns := ["id", "name"], pending := [], current := none, closed := true,
                    calls := [.Next, .Close] } }
        { connectedWorld with queried := 1 } :=
  QueryRow_no_rows emptyEnv connectedWorld { connectedWorld with queried := 1 }
    (.ptr (.struct userShape demoUser)) "SELECT id, name FROM user" []
    { columns := ["id", "name"], pending := [], current := none, closed := false, calls := [] }
    (by rfl) rfl

/-- C6 as stated fails on a destination that is not a pointer.  With a cursor of two
rows the call returns `ErrParamMustBeStructPointer` only after `Next` has advanced
the cursor past its first row and `Columns` has been read; with a cursor of no rows
it returns `ErrNoData` instead. -/
theorem QueryRow_non_pointer_counterexample :
    Orm.QueryRow demoEnv connectedWorld (.direct (.scalar .int (.int 7)))
        "SELECT id, name FROM user" [] =
      .ret
        { err := some .ErrParamMustBeStructPointer
          result := .direct (.scalar .int (.int 7))
          rows := { columns := ["id", "name"], pending := [[.int 2, .str "b"]], current := none,
                    closed := true, calls := [.Next, .Columns, .Close] } }
        { connectedWorld with queried := 1 } ∧
    Orm.QueryRow emptyEnv connectedWorld (.direct (.scalar .int (.int 7)))
        "SELECT id, name FROM user" [] =
      .ret
        { err := some .ErrNoData
          result := .direct (.scalar .int (.int 7))
          rows := { columns := ["id", "name"], pending := [], current := none, closed := true,
                    calls := [.Next, .Close] } }
        { connectedWorld with queried := 1 } :=
  ⟨by rfl, by rfl⟩

/-- On a pointer to a variable that is not a record `QueryRow` panics in `NumField`
instead of returning `ErrParamMustBeStructPointer`. -/
theorem QueryRow_pointer_to_scalar_panics :
    Orm.QueryRow demoEnv connectedWorld (.ptr (.scalar .int (.int 7)))
        "SELECT id, name FROM user" [] =
      .panicked "reflect: NumField of non-struct type" { connectedWorld with queried := 1 } := by
  rfl

/-- C6, amended: for a destination that is not a pointer and a cursor, returned by
`query` without error, that has at least one row, `QueryRow` returns
`ErrParamMustBeStructPointer` and the destination is as it was; before that the
cursor has been advanced to its first row and its columns have been read, and it is
closed on return. -/
theorem QueryRow_rejects_non_pointer (env : Env) (w w1 : World) (result : GoValue)
    (query : String) (args : List Val) (rows : Rows) (row : List Val)
    (rest : List (List Val)) (hkind : result.Kind ≠ .Ptr)
    (hq : Orm.query env w query args = .ret (some rows, none) w1)
    (hrows : rows.pending = row :: rest) :
    Orm.QueryRow env w result query args =
      .ret
        { err := some .ErrParamMustBeStructPointer
          result := result
          rows := { rows with
            calls := [.Next, .Columns, .Close], pending := rest, current := none,
            closed := true } }
        w1 := by
  obtain ⟨_, hfresh⟩ := query_ret env w query args (some rows) none w1 hq
  obtain ⟨hopen, _, hcalls⟩ := hfresh rows rfl
  obtain ⟨columns, pending, current, closed, calls⟩ := rows
  simp only at hrows hopen hcalls
  subst hrows hopen hcalls
  cases result with
  | nil => simp [Orm.QueryRow, hq, scanOne, Rows.Next, Rows.Columns, closeRows, Rows.Close]
  | direct v => simp [Orm.QueryRow, hq, scanOne, Rows.Next, Rows.Columns, closeRows, Rows.Close]
  | ptr v => exact absurd rfl hkind
  | nilPtr t => exact absurd rfl hkind

/-- C6, amended, on a `User` record passed by value. -/
theorem QueryRow_rejects_non_pointer_witness :
    Orm.QueryRow demoEnv connectedWorld (.direct (.struct userShape demoUser))
        "SELECT id, name FROM user" [] =
      .ret
        { err := some .ErrParamMustBeStructPointer
          result := .direct (.struct userShape demoUser)
          rows := { columns := ["id", "name"], pending := [[.int 2, .str "b"]], current := none,
                    closed := true, calls := [.Next, .Columns, .Close] } }
        { connectedWorld with queried := 1 } :=
  QueryRow_rejects_non_pointer demoEnv connectedWorld { connectedWorld with queried := 1 }
    (.direct (.struct userShape demoUser)) "SELECT id, name FROM user" []
    { columns := ["id", "name"], pending := [[.int 1, .str "a"], [.int 2, .str "b"]],
      current := none, closed := false, calls := [] }
    [.int 1, .str "a"] [[.int 2, .str "b"]] (by decide) (by rfl) rfl

/-- C7 as stated fails on a nil destination slice: after `QueryRows` on a cursor
with no row the call has returned nil and the slice is still nil, not an empty slice
that is present; and a slice that held a record still holds it, so it is not left
empty either. -/
theorem QueryRows_nil_slice_counterexample :
    (∃ out w2, Orm.QueryRows emptyEnv connectedWorld (.ptr (.slice (.struct userShape) none))
        "SELECT id, name FROM user" [] = .ret out w2 ∧ out.err = none ∧
      out.result = .ptr (.slice (.struct userShape) none)) ∧
    (∃ out w2, Orm.QueryRows emptyEnv connectedWorld
        (.ptr (.slice (.struct userShape) (some [demoUser])))
        "SELECT id, name FROM user" [] = .ret out w2 ∧ out.err = none ∧
      out.result = .ptr (.slice (.struct userShape) (some [demoUser]))) := by
  have hq : Orm.query emptyEnv connectedWorld "SELECT id, name FROM user" [] =
      .ret (some { columns := ["id", "name"], pending := [], current := none, closed := false,
                   calls := [] }, none) { connectedWorld with queried := 1 } := by rfl
  have hc : CacheOK emptyEnv connectedWorld.structMappingContainer :=
    fun p hp => by simp [connectedWorld] at hp
  constructor
  · obtain ⟨c, rows1, _, _, h⟩ := QueryRows_ret emptyEnv connectedWorld _ userShape none _
      "SELECT id, name FROM user" [] _ hc rfl hq (fun row hrow => by simp at hrow)
    exact ⟨_, _, h, rfl, rfl⟩
  · obtain ⟨c, rows1, _, _, h⟩ := QueryRows_ret emptyEnv connectedWorld _ userShape
      (some [demoUser]) _ "SELECT id, name FROM user" [] _ hc rfl hq
      (fun row hrow => by simp at hrow)
    exact ⟨_, _, h, rfl, rfl⟩

/-- C7, amended: for a pointer to a slice of records, nil or not, and a cursor,
returned by `query` without error, that has no row, `QueryRows` returns nil and
leaves the slice as it was before the call: a nil slice stays nil and a slice with
elements keeps them. -/
theorem QueryRows_no_rows (env : Env) (w w1 : World) (s : Shape)
    (items : Option (List (List Val))) (query : String) (args : List Val) (rows : Rows)
    (hc : CacheOK env w.structMappingContainer)
    (hq : Orm.query env w query args = .ret (some rows, none) w1)
    (hempty : rows.pending = []) :
    ∃ out w2, Orm.QueryRows env w (.ptr (.slice (.struct s) items)) query args = .ret out w2 ∧
      out.err = none ∧ out.result = .ptr (.slice (.struct s) items) := by
  obtain ⟨c, rows1, _, _, h⟩ := QueryRows_ret env w w1 s items _ query args rows hc rfl hq
    (fun row hrow => by rw [hempty] at hrow; simp at hrow)
  refine ⟨_, _, h, rfl, ?_⟩
  simp [hempty]

/-- C7, amended, on a nil slice of `User` records and a driver that answers with no
row. -/
theorem QueryRows_no_rows_witness :
    ∃ out w2, Orm.QueryRows emptyEnv connectedWorld (.ptr (.slice (.struct userShape) none))
        "SELECT id, name FROM user" [] = .ret out w2 ∧ out.err = none ∧
      out.result = .ptr (.slice (.struct userShape) none) :=
  QueryRows_no_rows emptyEnv connectedWorld { connectedWorld with queried := 1 } userShape none
    "SELECT id, name FROM user" []
    { columns := ["id", "name"], pending := [], current := none, closed := false, calls := [] }
    (fun p hp => by simp [connectedWorld] at hp) (by rfl) rfl

/-- C2: for a pointer to a slice of records and a cursor, returned by `query` without
error, whose `K` rows all scan (each row has one value per column and every value
bound to a field converts to that field's type), `QueryRows` returns nil and the
slice is its old content followed by exactly `K` records in cursor order.  Record
`i` is filled from row `i` alone by the rule of `QueryRow`: a field to which the
mapping sends a result column's name holds the converted value row `i` has in the
last column of that name, and every other field holds the zero value of its type. -/
theorem QueryRows_appends_each_row (env : Env) (w w1 : World) (s : Shape)
    (items : Option (List (List Val))) (m : GoMap) (query : String) (args : List Val)
    (rows : Rows)
    (hc : CacheOK env w.structMappingContainer)
    (hm : setTagMaps env (.struct s) = .ok m)
    (hq : Orm.query env w query args = .ret (some rows, none) w1)
    (hscan : ∀ row ∈ rows.pending, row.length = rows.columns.length ∧
      ∀ (j : Nat) (c : String) (idx : Nat) (f : StructField) (sv : Val),
        rows.columns[j]? = some c → m.get? c = some idx → s.fields[idx]? = some f →
        row[j]? = some sv → ∃ v, env.convertAssign f.Typ sv = .ok v) :
    ∃ out w2 items1 elems,
      Orm.QueryRows env w (.ptr (.slice (.struct s) items)) query args = .ret out w2 ∧
      out.err = none ∧ out.result = .ptr (.slice (.struct s) items1) ∧
      items1.getD [] = items.getD [] ++ elems ∧ elems.length = rows.pending.length ∧
      ∀ (i : Nat) (row : List Val), rows.pending[i]? = some row →
        ∃ e, elems[i]? = some e ∧ e.length = s.fields.length ∧
          (∀ (j : Nat) (c : String) (idx : Nat) (f : StructField) (sv : Val),
            rows.columns[j]? = some c → m.get? c = some idx → s.fields[idx]? = some f →
            row[j]? = some sv → (∀ j2 : Nat, j < j2 → rows.columns[j2]? ≠ some c) →
            ∃ v, env.convertAssign f.Typ sv = .ok v ∧ e[idx]? = some v) ∧
          (∀ (idx : Nat) (f : StructField), (∀ c ∈ rows.columns, m.get? c ≠ some idx) →
            s.fields[idx]? = some f → e[idx]? = some f.Typ.zero) := by
  obtain ⟨c, rows1, _, _, h⟩ := QueryRows_ret env w w1 s items m query args rows hc hm hq hscan
  have hinj := (setTagMaps_struct env s m hm).2
  refine ⟨_, _, _, rows.pending.map fun row =>
    (scanAssign env rows.columns (rows.columns.map (specTarget m s.fields)) row 0
      (s.fields.map fun f => f.Typ.zero)).2, h, rfl, rfl, ?_, by simp, ?_⟩
  · by_cases hp : rows.pending = []
    · simp [hp]
    · simp [hp]
  · intro i row hrow
    obtain ⟨hlen, hconv⟩ := hscan row (List.getElem?_mem hrow)
    have hok : (scanAssign env rows.columns (rows.columns.map (specTarget m s.fields)) row 0
        (s.fields.map fun f => f.Typ.zero)).1 = none := by
      apply scanAssign_ok
      intro j idx ty sv hd hs
      obtain ⟨c1, hc1, hg, f, hf, hty⟩ :=
        (specTarget_map_getElem? m s.fields rows.columns j idx ty).mp hd
      rw [← hty]
      exact hconv j c1 idx f sv hc1 hg hf hs
    refine ⟨(scanAssign env rows.columns (rows.columns.map (specTarget m s.fields)) row 0
        (s.fields.map fun f => f.Typ.zero)).2, by simp [List.getElem?_map, hrow],
      by rw [scanAssign_length, List.length_map], ?_, ?_⟩
    · intro j c1 idx f sv hc1 hg hf hs hlast
      have hidx : idx < (s.fields.map fun f => f.Typ.zero).length := by
        simpa using (List.getElem?_eq_some_iff.mp hf).1
      apply scanAssign_last env rows.columns idx f.Typ _ row 0 _ j sv hok
        ((specTarget_map_getElem? m s.fields rows.columns j idx f.Typ).mpr
          ⟨c1, hc1, hg, f, hf, rfl⟩) hs _ hidx
      intro j2 ty2 hj2 hd2
      obtain ⟨c2, hc2, hg2, _⟩ :=
        (specTarget_map_getElem? m s.fields rows.columns j2 idx ty2).mp hd2
      have : c2 = c1 := hinj c2 c1 idx hg2 hg
      subst this
      exact hlast j2 hj2 hc2
    · intro idx f hno hf
      rw [scanAssign_frame]
      · simp [List.getElem?_map, hf]
      · intro j ty hd
        obtain ⟨c1, hc1, hg, _⟩ :=
          (specTarget_map_getElem? m s.fields rows.columns j idx ty).mp hd
        exact hno c1 (List.getElem?_mem hc1) hg

/-- C2 on a nil slice of `User` records and the two-row answer of `demoEnv`: two
records are appended, the first with `Id = 1` and `Name = a` from the first row and
the zero value in the unexported field. -/
theorem QueryRows_appends_each_row_witness :
    ∃ out w2 items1 elems,
      Orm.QueryRows demoEnv connectedWorld (.ptr (.slice (.struct userShape) none))
        "SELECT id, name FROM user" [] = .ret out w2 ∧
      out.err = none ∧ out.result = .ptr (.slice (.struct userShape) items1) ∧
      items1.getD [] = elems ∧ elems.length = 2 ∧
      ∃ e, elems[0]? = some e ∧ e[0]? = some (.int 1) ∧ e[1]? = some (.str "a") ∧
        e[2]? = some (.str "") := by
  obtain ⟨out, w2, items1, elems, h, herr, hres, hitems, hlen, hrow⟩ :=
    QueryRows_appends_each_row demoEnv connectedWorld { connectedWorld with queried := 1 }
      userShape none [("id", 0), ("name", 1)] "SELECT id, name FROM user" []
      { columns := ["id", "name"], pending := [[.int 1, .str "a"], [.int 2, .str "b"]],
        current := none, closed := false, calls := [] }
      (fun p hp => by simp [connectedWorld] at hp) (by rfl) (by rfl)
      (fun row hrow => by
        simp only [List.mem_cons, List.mem_singleton, List.not_mem_nil, or_false] at hrow
        rcases hrow with rfl | rfl
        · exact ⟨rfl, demo_row_converts 1 "a"⟩
        · exact ⟨rfl, demo_row_converts 2 "b"⟩)
  obtain ⟨e, he, _, hbound, hzero⟩ := hrow 0 [.int 1, .str "a"] rfl
  refine ⟨out, w2, items1, elems, h, herr, hres, by simpa using hitems, hlen, e, he, ?_, ?_, ?_⟩
  · obtain ⟨v, hv, hf⟩ := hbound 0 "id" 0 _ (.int 1) rfl (by decide) rfl rfl
      demo_columns_last.1
    have hv1 : Except.ok (Val.int 1) = Except.ok v := hv
    rw [hf, ← Except.ok.inj hv1]
  · obtain ⟨v, hv, hf⟩ := hbound 1 "name" 1 _ (.str "a") rfl (by decide) rfl rfl
      demo_columns_last.2
    have hv1 : Except.ok (Val.str "a") = Except.ok v := hv
    rw [hf, ← Except.ok.inj hv1]
  · exact hzero 2 _ (by decide) rfl

end Agorm
